import Mathlib

/-!
# Verification of the ppcheat rotate-and-mask instruction model and parser

Shallow embedding of `src/main.rs` (instruction model, `canonicalize`,
`highlevel`) and `src/parser.rs` (the nom-based mnemonic parser).

Conventions of the embedding:
* Rust `u8` fields are modelled as `Nat`; `u8` arithmetic is modelled with
  explicit wrapping modulo 256 (`add8` / `sub8`), the two's-complement
  semantics of the underlying 8-bit operations.
* The nom parsers work on `&str`; here they work on `List Char`.  A nom
  `IResult<&str, T>` with the plain `nom::error::Error` type is modelled as
  `Except (List Char × ErrKind) (List Char × T)`: success carries the
  unconsumed remainder and the value, failure carries the input position at
  which the failing combinator ran and its nom `ErrorKind`.
* nom's `alt` (with the plain error type) returns the error of the *last*
  alternative when every branch fails; `palt` reproduces this.
* nom's `map_res` reports `ErrorKind::MapRes` at the input it was handed
  (before its inner parser consumed anything).
* `unimplemented!()` in `Opcode::highlevel` aborts the Rust process; that
  arm is modelled as `none` (the function is partial on non-`Rlwinm` input).
-/

/-- ASCII decimal digit character for `n < 10`, as produced by Rust's
decimal `Display` formatting. -/
def digitChar (n : Nat) : Char := Char.ofNat (48 + n)

/-- ASCII lowercase hexadecimal digit character for `n < 16`. -/
def hexChar (n : Nat) : Char :=
  if n < 10 then Char.ofNat (48 + n) else Char.ofNat (87 + n)

/-- Fuel-driven most-significant-first digit expansion in base `base`,
rendering each digit with `dc`. -/
def digitsBAux (base : Nat) (dc : Nat → Char) : Nat → Nat → List Char
  | 0, _ => []
  | fuel+1, n =>
    if n < base then [dc n]
    else digitsBAux base dc fuel (n / base) ++ [dc (n % base)]

/-- Decimal digit string of `n`, as Rust `{}` formatting of an integer. -/
def natDigits (n : Nat) : List Char := digitsBAux 10 digitChar (n + 1) n

/-- Lowercase hexadecimal digit string of `n`. -/
def hexDigitsL (n : Nat) : List Char := digitsBAux 16 hexChar (n + 1) n

/-- Decimal rendering of a natural number as a `String`. -/
def natStr (n : Nat) : String := String.mk (natDigits n)

/-- Embedding of `Register(pub u8)` from `main.rs`: a wrapper over the register number. -/
structure Register where
  val : Nat
  deriving DecidableEq, Repr

/-- The `Opcode` enum from `main.rs`: three canonical rotate-and-mask forms
followed by the twelve pseudomnemonic forms, each holding exactly the
operands its syntax admits. -/
inductive Opcode where
  | Rlwinm (ra rs : Register) (sh mb me : Nat)
  | Rlwimi (ra rs : Register) (sh mb me : Nat)
  | Rlwnm (ra rs rb : Register) (mb me : Nat)
  | Extlwi (ra rs : Register) (n b : Nat)
  | Extrwi (ra rs : Register) (n b : Nat)
  | Rotlwi (ra rs : Register) (n : Nat)
  | Rotrwi (ra rs : Register) (n : Nat)
  | Slwi (ra rs : Register) (n : Nat)
  | Srwi (ra rs : Register) (n : Nat)
  | Clrlwi (ra rs : Register) (n : Nat)
  | Clrrwi (ra rs : Register) (n : Nat)
  | Clrlslwi (ra rs : Register) (b n : Nat)
  | Rotlw (ra rs rb : Register)
  | Inslwi (ra rs : Register) (n b : Nat)
  | Insrwi (ra rs : Register) (n b : Nat)
  deriving DecidableEq, Repr

/-- Wrapping 8-bit addition (`u8` `+` with overflow checks disabled). -/
def add8 (a b : Nat) : Nat := (a + b) % 256

/-- Wrapping 8-bit subtraction (`u8` `-` with overflow checks disabled);
faithful for operands below 256. -/
def sub8 (a b : Nat) : Nat := (a + 256 - b) % 256

/-- Embedding of `Opcode::canonicalize` from `main.rs`: identity on the three canonical
variants, and the fixed `sh`/`mb`/`me` derivations (in `u8` arithmetic) for
every pseudomnemonic. -/
def canonicalize : Opcode → Opcode
  | .Rlwinm ra rs sh mb me => .Rlwinm ra rs sh mb me
  | .Rlwimi ra rs sh mb me => .Rlwimi ra rs sh mb me
  | .Rlwnm ra rs rb mb me => .Rlwnm ra rs rb mb me
  | .Inslwi ra rs n b => .Rlwinm ra rs (sub8 32 b) b (sub8 (add8 b n) 1)
  | .Insrwi ra rs n b => .Rlwinm ra rs (sub8 32 (add8 b n)) b (sub8 (add8 b n) 1)
  | .Extlwi ra rs n b => .Rlwinm ra rs b 0 (sub8 n 1)
  | .Extrwi ra rs n b => .Rlwinm ra rs (add8 b n) (sub8 32 n) 31
  | .Rotlwi ra rs n => .Rlwinm ra rs n 0 31
  | .Rotrwi ra rs n => .Rlwinm ra rs (sub8 32 n) 0 31
  | .Slwi ra rs n => .Rlwinm ra rs n 0 (sub8 31 n)
  | .Srwi ra rs n => .Rlwinm ra rs (sub8 32 n) n 31
  | .Clrlwi ra rs n => .Rlwinm ra rs 0 n 31
  | .Clrrwi ra rs n => .Rlwinm ra rs 0 0 (sub8 31 n)
  | .Clrlslwi ra rs b n => .Rlwinm ra rs n (sub8 b n) (sub8 31 n)
  | .Rotlw ra rs rb => .Rlwnm ra rs rb 0 31

/-- Embedding of `Opcode::highlevel` from `main.rs`: the one-line description of a
canonical `Rlwinm`; the `unimplemented!()`-panicking arm for every other
variant is modelled as `none`. -/
def highlevel : Opcode → Option String
  | .Rlwinm ra rs sh mb me =>
    some ("r" ++ natStr ra.val ++ " = (r" ++ natStr rs.val ++ " << " ++
      natStr sh ++ ") & MASK(" ++ natStr mb ++ ".." ++ natStr me ++ ")")
  | _ => none

/-- Model: `canonicalize`'s numeric outputs are 8-bit values whenever its numeric
inputs are (well-formedness of the `u8` fields). -/
def wf8 : Opcode → Prop
  | .Rlwinm ra rs sh mb me =>
    ra.val ≤ 255 ∧ rs.val ≤ 255 ∧ sh ≤ 255 ∧ mb ≤ 255 ∧ me ≤ 255
  | .Rlwimi ra rs sh mb me =>
    ra.val ≤ 255 ∧ rs.val ≤ 255 ∧ sh ≤ 255 ∧ mb ≤ 255 ∧ me ≤ 255
  | .Rlwnm ra rs rb mb me =>
    ra.val ≤ 255 ∧ rs.val ≤ 255 ∧ rb.val ≤ 255 ∧ mb ≤ 255 ∧ me ≤ 255
  | .Extlwi ra rs n b => ra.val ≤ 255 ∧ rs.val ≤ 255 ∧ n ≤ 255 ∧ b ≤ 255
  | .Extrwi ra rs n b => ra.val ≤ 255 ∧ rs.val ≤ 255 ∧ n ≤ 255 ∧ b ≤ 255
  | .Rotlwi ra rs n => ra.val ≤ 255 ∧ rs.val ≤ 255 ∧ n ≤ 255
  | .Rotrwi ra rs n => ra.val ≤ 255 ∧ rs.val ≤ 255 ∧ n ≤ 255
  | .Slwi ra rs n => ra.val ≤ 255 ∧ rs.val ≤ 255 ∧ n ≤ 255
  | .Srwi ra rs n => ra.val ≤ 255 ∧ rs.val ≤ 255 ∧ n ≤ 255
  | .Clrlwi ra rs n => ra.val ≤ 255 ∧ rs.val ≤ 255 ∧ n ≤ 255
  | .Clrrwi ra rs n => ra.val ≤ 255 ∧ rs.val ≤ 255 ∧ n ≤ 255
  | .Clrlslwi ra rs b n => ra.val ≤ 255 ∧ rs.val ≤ 255 ∧ b ≤ 255 ∧ n ≤ 255
  | .Rotlw ra rs rb => ra.val ≤ 255 ∧ rs.val ≤ 255 ∧ rb.val ≤ 255
  | .Inslwi ra rs n b => ra.val ≤ 255 ∧ rs.val ≤ 255 ∧ n ≤ 255 ∧ b ≤ 255
  | .Insrwi ra rs n b => ra.val ≤ 255 ∧ rs.val ≤ 255 ∧ n ≤ 255 ∧ b ≤ 255

/-- The numeric pseudomnemonic operands are in the ISA range 0–31 (the
hypothesis of the canonicalization-table claim); no constraint is placed on
register numbers or on the canonical variants' fields. -/
def ops31 : Opcode → Prop
  | .Extlwi _ _ n b => n ≤ 31 ∧ b ≤ 31
  | .Extrwi _ _ n b => n ≤ 31 ∧ b ≤ 31
  | .Rotlwi _ _ n => n ≤ 31
  | .Rotrwi _ _ n => n ≤ 31
  | .Slwi _ _ n => n ≤ 31
  | .Srwi _ _ n => n ≤ 31
  | .Clrlwi _ _ n => n ≤ 31
  | .Clrrwi _ _ n => n ≤ 31
  | .Clrlslwi _ _ b n => b ≤ 31 ∧ n ≤ 31
  | .Inslwi _ _ n b => n ≤ 31 ∧ b ≤ 31
  | .Insrwi _ _ n b => n ≤ 31 ∧ b ≤ 31
  | _ => True

/-- Reduction of a signed field expression to its 8-bit representative:
the table entries of spec §4.1 read at the `u8` field width. -/
def n8 (z : Int) : Nat := (z % 256).toNat

/-- Modelled from the spec, §4.1 table: the canonicalization algebra as the
spec states it, each `sh`/`mb`/`me` entry written as the table's signed
arithmetic expression reduced to its 8-bit field value by `n8`; registers
pass through unchanged, canonical variants map to themselves. -/
def canonSpec : Opcode → Opcode
  | .Inslwi ra rs n b =>
    .Rlwinm ra rs (n8 (32 - (b : Int))) (n8 (b : Int)) (n8 ((b : Int) + (n : Int) - 1))
  | .Insrwi ra rs n b =>
    .Rlwinm ra rs (n8 (32 - ((b : Int) + (n : Int)))) (n8 (b : Int)) (n8 ((b : Int) + (n : Int) - 1))
  | .Extlwi ra rs n b =>
    .Rlwinm ra rs (n8 (b : Int)) 0 (n8 ((n : Int) - 1))
  | .Extrwi ra rs n b =>
    .Rlwinm ra rs (n8 ((b : Int) + (n : Int))) (n8 (32 - (n : Int))) 31
  | .Rotlwi ra rs n => .Rlwinm ra rs (n8 (n : Int)) 0 31
  | .Rotrwi ra rs n => .Rlwinm ra rs (n8 (32 - (n : Int))) 0 31
  | .Slwi ra rs n => .Rlwinm ra rs (n8 (n : Int)) 0 (n8 (31 - (n : Int)))
  | .Srwi ra rs n => .Rlwinm ra rs (n8 (32 - (n : Int))) (n8 (n : Int)) 31
  | .Clrlwi ra rs n => .Rlwinm ra rs 0 (n8 (n : Int)) 31
  | .Clrrwi ra rs n => .Rlwinm ra rs 0 0 (n8 (31 - (n : Int)))
  | .Clrlslwi ra rs b n =>
    .Rlwinm ra rs (n8 (n : Int)) (n8 ((b : Int) - (n : Int))) (n8 (31 - (n : Int)))
  | .Rotlw ra rs rb => .Rlwnm ra rs rb 0 31
  | x => x

/-- The nom `ErrorKind` values this grammar can produce with the plain
`nom::error::Error` type. -/
inductive ErrKind where
  | Tag
  | MapRes
  | Digit
  | HexDigit
  deriving DecidableEq, Repr

/-- Model: `IResult<&str, T>` with the plain `nom::error::Error<&str>`: either the
remaining input and a value, or the input at the failure point and the
failing combinator's `ErrorKind`. -/
abbrev PRes (α : Type) := Except (List Char × ErrKind) (List Char × α)

/-- Sequencing of nom combinators (`preceded` / `tuple`): a failure of the
first parser is the failure of the whole. -/
def pseq {α β : Type} (r : PRes α) (f : List Char → α → PRes β) : PRes β :=
  match r with
  | .error e => .error e
  | .ok (i, a) => f i a

/-- nom's `alt` between two branches with the plain error type: the first
success wins; if the first branch fails, the result is the second branch's
(so an exhausted `alt` reports the last alternative's error unchanged). -/
def palt {α : Type} (r : PRes α) (next : Unit → PRes α) : PRes α :=
  match r with
  | .ok v => .ok v
  | .error _ => next ()

/-- Boolean list-prefix test (nom `tag` comparison). -/
def isPrefixOfC : List Char → List Char → Bool
  | [], _ => true
  | _ :: _, [] => false
  | a :: as, b :: bs => if a = b then isPrefixOfC as bs else false

/-- nom `tag`: case-sensitive literal match at the head of the input;
fails with `ErrorKind::Tag` at the current input otherwise. -/
def tag (t : List Char) (inp : List Char) : PRes (List Char) :=
  if isPrefixOfC t inp then .ok (inp.drop t.length, t) else .error (inp, .Tag)

/-- nom's ASCII decimal digit class (`AsChar::is_dec_digit` on `&str`). -/
def isDigitC (c : Char) : Bool := decide (48 ≤ c.toNat ∧ c.toNat ≤ 57)

/-- nom's ASCII hexadecimal digit class (`AsChar::is_hex_digit`). -/
def isHexDigitC (c : Char) : Bool :=
  decide ((48 ≤ c.toNat ∧ c.toNat ≤ 57) ∨ (97 ≤ c.toNat ∧ c.toNat ≤ 102) ∨
    (65 ≤ c.toNat ∧ c.toNat ≤ 70))

/-- The characters accepted by nom `multispace0`: space, tab, CR, LF. -/
def isMultispaceC (c : Char) : Bool :=
  decide (c.toNat = 32 ∨ c.toNat = 9 ∨ c.toNat = 10 ∨ c.toNat = 13)

/-- nom `digit1` (complete): one or more ASCII decimal digits, failing with
`ErrorKind::Digit` when the input does not start with a digit. -/
def digit1 (inp : List Char) : PRes (List Char) :=
  if inp.takeWhile isDigitC = [] then .error (inp, .Digit)
  else .ok (inp.drop (inp.takeWhile isDigitC).length, inp.takeWhile isDigitC)

/-- nom `hex_digit1` (complete): one or more ASCII hex digits, failing with
`ErrorKind::HexDigit` otherwise. -/
def hex_digit1 (inp : List Char) : PRes (List Char) :=
  if inp.takeWhile isHexDigitC = [] then .error (inp, .HexDigit)
  else .ok (inp.drop (inp.takeWhile isHexDigitC).length, inp.takeWhile isHexDigitC)

/-- The accumulating value of a digit string in base `b` with per-character
value `vf`, as Rust's `from_str` / `from_str_radix` accumulation. -/
def baseVal (b : Nat) (vf : Char → Nat) (ds : List Char) : Nat :=
  ds.foldl (fun a c => b * a + vf c) 0

/-- Value of one ASCII decimal digit character. -/
def decCharVal (c : Char) : Nat := c.toNat - 48

/-- Value of one ASCII hexadecimal digit character (either case). -/
def hexCharVal (c : Char) : Nat :=
  if c.toNat ≤ 57 then c.toNat - 48
  else if 97 ≤ c.toNat then c.toNat - 87
  else c.toNat - 55

/-- Rust `str::parse::<u8>` on a nonempty all-decimal-digit slice: the value
when it fits in eight bits, otherwise an overflow error. -/
def decValue? (ds : List Char) : Option Nat :=
  if baseVal 10 decCharVal ds ≤ 255 then some (baseVal 10 decCharVal ds) else none

/-- Rust `u8::from_str_radix(_, 16)` on a nonempty all-hex-digit slice. -/
def hexValue? (ds : List Char) : Option Nat :=
  if baseVal 16 hexCharVal ds ≤ 255 then some (baseVal 16 hexCharVal ds) else none

/-- Embedding of `parse_register` from `parser.rs`: literal `r` then `map_res(digit1,
str::parse::<u8>)`; the `map_res` failure is `ErrorKind::MapRes` at the
input it received (after the `r`). -/
def parse_register (inp : List Char) : PRes Register :=
  pseq (tag ['r'] inp) fun i1 _ =>
  pseq (digit1 i1) fun i2 ds =>
  match decValue? ds with
  | some v => .ok (i2, ⟨v⟩)
  | none => .error (i1, .MapRes)

/-- Embedding of `parse_immediate` from `parser.rs`: `alt` of a lowercase-`0x`-prefixed
hexadecimal branch (tried first) and a bare decimal branch, each through a
`map_res` into `u8`. -/
def parse_immediate (inp : List Char) : PRes Nat :=
  palt
    (pseq (tag ['0', 'x'] inp) fun i1 _ =>
      pseq (hex_digit1 i1) fun i2 ds =>
      match hexValue? ds with
      | some v => .ok (i2, v)
      | none => .error (inp, .MapRes))
    fun _ =>
    pseq (digit1 inp) fun i2 ds =>
    match decValue? ds with
    | some v => .ok (i2, v)
    | none => .error (inp, .MapRes)

/-- Embedding of `whitespace` from `parser.rs`: `multispace0`, which never fails. -/
def whitespace (inp : List Char) : PRes Unit :=
  .ok (inp.dropWhile isMultispaceC, ())

/-- Embedding of `comma_sep` from `parser.rs`: optional whitespace, a comma, optional
whitespace. -/
def comma_sep (inp : List Char) : PRes Unit :=
  pseq (tag [','] (inp.dropWhile isMultispaceC)) fun i1 _ =>
  .ok (i1.dropWhile isMultispaceC, ())

/-- Keyword of `rlwinm`. -/
def kw_rlwinm : List Char := ['r', 'l', 'w', 'i', 'n', 'm']

/-- Keyword of `rlwimi`. -/
def kw_rlwimi : List Char := ['r', 'l', 'w', 'i', 'm', 'i']

/-- Keyword of `rlwnm`. -/
def kw_rlwnm : List Char := ['r', 'l', 'w', 'n', 'm']

/-- Keyword of `extlwi`. -/
def kw_extlwi : List Char := ['e', 'x', 't', 'l', 'w', 'i']

/-- Keyword of `extrwi`. -/
def kw_extrwi : List Char := ['e', 'x', 't', 'r', 'w', 'i']

/-- Keyword of `rotlwi`. -/
def kw_rotlwi : List Char := ['r', 'o', 't', 'l', 'w', 'i']

/-- Keyword of `rotrwi`. -/
def kw_rotrwi : List Char := ['r', 'o', 't', 'r', 'w', 'i']

/-- Keyword of `slwi`. -/
def kw_slwi : List Char := ['s', 'l', 'w', 'i']

/-- Keyword of `srwi`. -/
def kw_srwi : List Char := ['s', 'r', 'w', 'i']

/-- Keyword of `clrlwi`. -/
def kw_clrlwi : List Char := ['c', 'l', 'r', 'l', 'w', 'i']

/-- Keyword of `clrrwi`. -/
def kw_clrrwi : List Char := ['c', 'l', 'r', 'r', 'w', 'i']

/-- Keyword of `clrlslwi`. -/
def kw_clrlslwi : List Char := ['c', 'l', 'r', 'l', 's', 'l', 'w', 'i']

/-- Keyword of `rotlw`. -/
def kw_rotlw : List Char := ['r', 'o', 't', 'l', 'w']

/-- Keyword of `inslwi`. -/
def kw_inslwi : List Char := ['i', 'n', 's', 'l', 'w', 'i']

/-- Keyword of `insrwi`. -/
def kw_insrwi : List Char := ['i', 'n', 's', 'r', 'w', 'i']

/-- Embedding of `parse_rlwinm` from `parser.rs`. -/
def parse_rlwinm (inp : List Char) : PRes Opcode :=
  pseq (tag kw_rlwinm inp) fun i0 _ =>
  pseq (whitespace i0) fun i1 _ =>
  pseq (parse_register i1) fun i2 ra =>
  pseq (comma_sep i2) fun i3 _ =>
  pseq (parse_register i3) fun i4 rs =>
  pseq (comma_sep i4) fun i5 _ =>
  pseq (parse_immediate i5) fun i6 sh =>
  pseq (comma_sep i6) fun i7 _ =>
  pseq (parse_immediate i7) fun i8 mb =>
  pseq (comma_sep i8) fun i9 _ =>
  pseq (parse_immediate i9) fun i10 me =>
  .ok (i10, .Rlwinm ra rs sh mb me)

/-- Embedding of `parse_rlwimi` from `parser.rs`. -/
def parse_rlwimi (inp : List Char) : PRes Opcode :=
  pseq (tag kw_rlwimi inp) fun i0 _ =>
  pseq (whitespace i0) fun i1 _ =>
  pseq (parse_register i1) fun i2 ra =>
  pseq (comma_sep i2) fun i3 _ =>
  pseq (parse_register i3) fun i4 rs =>
  pseq (comma_sep i4) fun i5 _ =>
  pseq (parse_immediate i5) fun i6 sh =>
  pseq (comma_sep i6) fun i7 _ =>
  pseq (parse_immediate i7) fun i8 mb =>
  pseq (comma_sep i8) fun i9 _ =>
  pseq (parse_immediate i9) fun i10 me =>
  .ok (i10, .Rlwimi ra rs sh mb me)

/-- Embedding of `parse_rlwnm` from `parser.rs`. -/
def parse_rlwnm (inp : List Char) : PRes Opcode :=
  pseq (tag kw_rlwnm inp) fun i0 _ =>
  pseq (whitespace i0) fun i1 _ =>
  pseq (parse_register i1) fun i2 ra =>
  pseq (comma_sep i2) fun i3 _ =>
  pseq (parse_register i3) fun i4 rs =>
  pseq (comma_sep i4) fun i5 _ =>
  pseq (parse_register i5) fun i6 rb =>
  pseq (comma_sep i6) fun i7 _ =>
  pseq (parse_immediate i7) fun i8 mb =>
  pseq (comma_sep i8) fun i9 _ =>
  pseq (parse_immediate i9) fun i10 me =>
  .ok (i10, .Rlwnm ra rs rb mb me)

/-- Embedding of `parse_extlwi` from `parser.rs`. -/
def parse_extlwi (inp : List Char) : PRes Opcode :=
  pseq (tag kw_extlwi inp) fun i0 _ =>
  pseq (whitespace i0) fun i1 _ =>
  pseq (parse_register i1) fun i2 ra =>
  pseq (comma_sep i2) fun i3 _ =>
  pseq (parse_register i3) fun i4 rs =>
  pseq (comma_sep i4) fun i5 _ =>
  pseq (parse_immediate i5) fun i6 n =>
  pseq (comma_sep i6) fun i7 _ =>
  pseq (parse_immediate i7) fun i8 b =>
  .ok (i8, .Extlwi ra rs n b)

/-- Embedding of `parse_extrwi` from `parser.rs`. -/
def parse_extrwi (inp : List Char) : PRes Opcode :=
  pseq (tag kw_extrwi inp) fun i0 _ =>
  pseq (whitespace i0) fun i1 _ =>
  pseq (parse_register i1) fun i2 ra =>
  pseq (comma_sep i2) fun i3 _ =>
  pseq (parse_register i3) fun i4 rs =>
  pseq (comma_sep i4) fun i5 _ =>
  pseq (parse_immediate i5) fun i6 n =>
  pseq (comma_sep i6) fun i7 _ =>
  pseq (parse_immediate i7) fun i8 b =>
  .ok (i8, .Extrwi ra rs n b)

/-- Embedding of `parse_rotlwi` from `parser.rs`. -/
def parse_rotlwi (inp : List Char) : PRes Opcode :=
  pseq (tag kw_rotlwi inp) fun i0 _ =>
  pseq (whitespace i0) fun i1 _ =>
  pseq (parse_register i1) fun i2 ra =>
  pseq (comma_sep i2) fun i3 _ =>
  pseq (parse_register i3) fun i4 rs =>
  pseq (comma_sep i4) fun i5 _ =>
  pseq (parse_immediate i5) fun i6 n =>
  .ok (i6, .Rotlwi ra rs n)

/-- Embedding of `parse_rotrwi` from `parser.rs`. -/
def parse_rotrwi (inp : List Char) : PRes Opcode :=
  pseq (tag kw_rotrwi inp) fun i0 _ =>
  pseq (whitespace i0) fun i1 _ =>
  pseq (parse_register i1) fun i2 ra =>
  pseq (comma_sep i2) fun i3 _ =>
  pseq (parse_register i3) fun i4 rs =>
  pseq (comma_sep i4) fun i5 _ =>
  pseq (parse_immediate i5) fun i6 n =>
  .ok (i6, .Rotrwi ra rs n)

/-- Embedding of `parse_slwi` from `parser.rs`. -/
def parse_slwi (inp : List Char) : PRes Opcode :=
  pseq (tag kw_slwi inp) fun i0 _ =>
  pseq (whitespace i0) fun i1 _ =>
  pseq (parse_register i1) fun i2 ra =>
  pseq (comma_sep i2) fun i3 _ =>
  pseq (parse_register i3) fun i4 rs =>
  pseq (comma_sep i4) fun i5 _ =>
  pseq (parse_immediate i5) fun i6 n =>
  .ok (i6, .Slwi ra rs n)

/-- Embedding of `parse_srwi` from `parser.rs`. -/
def parse_srwi (inp : List Char) : PRes Opcode :=
  pseq (tag kw_srwi inp) fun i0 _ =>
  pseq (whitespace i0) fun i1 _ =>
  pseq (parse_register i1) fun i2 ra =>
  pseq (comma_sep i2) fun i3 _ =>
  pseq (parse_register i3) fun i4 rs =>
  pseq (comma_sep i4) fun i5 _ =>
  pseq (parse_immediate i5) fun i6 n =>
  .ok (i6, .Srwi ra rs n)

/-- Embedding of `parse_clrlwi` from `parser.rs`. -/
def parse_clrlwi (inp : List Char) : PRes Opcode :=
  pseq (tag kw_clrlwi inp) fun i0 _ =>
  pseq (whitespace i0) fun i1 _ =>
  pseq (parse_register i1) fun i2 ra =>
  pseq (comma_sep i2) fun i3 _ =>
  pseq (parse_register i3) fun i4 rs =>
  pseq (comma_sep i4) fun i5 _ =>
  pseq (parse_immediate i5) fun i6 n =>
  .ok (i6, .Clrlwi ra rs n)

/-- Embedding of `parse_clrrwi` from `parser.rs`. -/
def parse_clrrwi (inp : List Char) : PRes Opcode :=
  pseq (tag kw_clrrwi inp) fun i0 _ =>
  pseq (whitespace i0) fun i1 _ =>
  pseq (parse_register i1) fun i2 ra =>
  pseq (comma_sep i2) fun i3 _ =>
  pseq (parse_register i3) fun i4 rs =>
  pseq (comma_sep i4) fun i5 _ =>
  pseq (parse_immediate i5) fun i6 n =>
  .ok (i6, .Clrrwi ra rs n)

/-- Embedding of `parse_clrlslwi` from `parser.rs`: note the `(b, n)` operand order. -/
def parse_clrlslwi (inp : List Char) : PRes Opcode :=
  pseq (tag kw_clrlslwi inp) fun i0 _ =>
  pseq (whitespace i0) fun i1 _ =>
  pseq (parse_register i1) fun i2 ra =>
  pseq (comma_sep i2) fun i3 _ =>
  pseq (parse_register i3) fun i4 rs =>
  pseq (comma_sep i4) fun i5 _ =>
  pseq (parse_immediate i5) fun i6 b =>
  pseq (comma_sep i6) fun i7 _ =>
  pseq (parse_immediate i7) fun i8 n =>
  .ok (i8, .Clrlslwi ra rs b n)

/-- Embedding of `parse_rotlw` from `parser.rs`: three register operands. -/
def parse_rotlw (inp : List Char) : PRes Opcode :=
  pseq (tag kw_rotlw inp) fun i0 _ =>
  pseq (whitespace i0) fun i1 _ =>
  pseq (parse_register i1) fun i2 ra =>
  pseq (comma_sep i2) fun i3 _ =>
  pseq (parse_register i3) fun i4 rs =>
  pseq (comma_sep i4) fun i5 _ =>
  pseq (parse_register i5) fun i6 rb =>
  .ok (i6, .Rotlw ra rs rb)

/-- Embedding of `parse_inslwi` from `parser.rs`. -/
def parse_inslwi (inp : List Char) : PRes Opcode :=
  pseq (tag kw_inslwi inp) fun i0 _ =>
  pseq (whitespace i0) fun i1 _ =>
  pseq (parse_register i1) fun i2 ra =>
  pseq (comma_sep i2) fun i3 _ =>
  pseq (parse_register i3) fun i4 rs =>
  pseq (comma_sep i4) fun i5 _ =>
  pseq (parse_immediate i5) fun i6 n =>
  pseq (comma_sep i6) fun i7 _ =>
  pseq (parse_immediate i7) fun i8 b =>
  .ok (i8, .Inslwi ra rs n b)

/-- Embedding of `parse_insrwi` from `parser.rs`. -/
def parse_insrwi (inp : List Char) : PRes Opcode :=
  pseq (tag kw_insrwi inp) fun i0 _ =>
  pseq (whitespace i0) fun i1 _ =>
  pseq (parse_register i1) fun i2 ra =>
  pseq (comma_sep i2) fun i3 _ =>
  pseq (parse_register i3) fun i4 rs =>
  pseq (comma_sep i4) fun i5 _ =>
  pseq (parse_immediate i5) fun i6 n =>
  pseq (comma_sep i6) fun i7 _ =>
  pseq (parse_immediate i7) fun i8 b =>
  .ok (i8, .Insrwi ra rs n b)

/-- Embedding of `parse_opcode` from `parser.rs` (the public, complete dispatcher): the
fifteen alternatives in source order, the canonical three first. -/
def parse_opcode (inp : List Char) : PRes Opcode :=
  palt (parse_rlwinm inp) fun _ =>
  palt (parse_rlwimi inp) fun _ =>
  palt (parse_rlwnm inp) fun _ =>
  palt (parse_extlwi inp) fun _ =>
  palt (parse_extrwi inp) fun _ =>
  palt (parse_rotlwi inp) fun _ =>
  palt (parse_rotrwi inp) fun _ =>
  palt (parse_slwi inp) fun _ =>
  palt (parse_srwi inp) fun _ =>
  palt (parse_clrlwi inp) fun _ =>
  palt (parse_clrrwi inp) fun _ =>
  palt (parse_clrlslwi inp) fun _ =>
  palt (parse_rotlw inp) fun _ =>
  palt (parse_inslwi inp) fun _ =>
  parse_insrwi inp

/-- The fifteen mnemonic keywords, in dispatch order. -/
def keywords : List (List Char) :=
  [kw_rlwinm, kw_rlwimi, kw_rlwnm, kw_extlwi, kw_extrwi, kw_rotlwi, kw_rotrwi,
   kw_slwi, kw_srwi, kw_clrlwi, kw_clrrwi, kw_clrlslwi, kw_rotlw, kw_inslwi,
   kw_insrwi]

/-- Assembly-text rendering of a register operand followed by `rest`. -/
def renderReg (r : Register) (rest : List Char) : List Char :=
  ['r'] ++ (natDigits r.val ++ rest)

/-- Assembly-text rendering of a decimal immediate followed by `rest`. -/
def renderImm (n : Nat) (rest : List Char) : List Char :=
  natDigits n ++ rest

/-- The canonical assembly line of each instruction: its keyword, one
space, and the comma-separated operands in the mnemonic's syntax. -/
def renderOp : Opcode → List Char
  | .Rlwinm ra rs sh mb me =>
    kw_rlwinm ++ (' ' :: renderReg ra (',' :: renderReg rs (',' ::
      renderImm sh (',' :: renderImm mb (',' :: renderImm me [])))))
  | .Rlwimi ra rs sh mb me =>
    kw_rlwimi ++ (' ' :: renderReg ra (',' :: renderReg rs (',' ::
      renderImm sh (',' :: renderImm mb (',' :: renderImm me [])))))
  | .Rlwnm ra rs rb mb me =>
    kw_rlwnm ++ (' ' :: renderReg ra (',' :: renderReg rs (',' ::
      renderReg rb (',' :: renderImm mb (',' :: renderImm me [])))))
  | .Extlwi ra rs n b =>
    kw_extlwi ++ (' ' :: renderReg ra (',' :: renderReg rs (',' ::
      renderImm n (',' :: renderImm b []))))
  | .Extrwi ra rs n b =>
    kw_extrwi ++ (' ' :: renderReg ra (',' :: renderReg rs (',' ::
      renderImm n (',' :: renderImm b []))))
  | .Rotlwi ra rs n =>
    kw_rotlwi ++ (' ' :: renderReg ra (',' :: renderReg rs (',' :: renderImm n [])))
  | .Rotrwi ra rs n =>
    kw_rotrwi ++ (' ' :: renderReg ra (',' :: renderReg rs (',' :: renderImm n [])))
  | .Slwi ra rs n =>
    kw_slwi ++ (' ' :: renderReg ra (',' :: renderReg rs (',' :: renderImm n [])))
  | .Srwi ra rs n =>
    kw_srwi ++ (' ' :: renderReg ra (',' :: renderReg rs (',' :: renderImm n [])))
  | .Clrlwi ra rs n =>
    kw_clrlwi ++ (' ' :: renderReg ra (',' :: renderReg rs (',' :: renderImm n [])))
  | .Clrrwi ra rs n =>
    kw_clrrwi ++ (' ' :: renderReg ra (',' :: renderReg rs (',' :: renderImm n [])))
  | .Clrlslwi ra rs b n =>
    kw_clrlslwi ++ (' ' :: renderReg ra (',' :: renderReg rs (',' ::
      renderImm b (',' :: renderImm n []))))
  | .Rotlw ra rs rb =>
    kw_rotlw ++ (' ' :: renderReg ra (',' :: renderReg rs (',' :: renderReg rb [])))
  | .Inslwi ra rs n b =>
    kw_inslwi ++ (' ' :: renderReg ra (',' :: renderReg rs (',' ::
      renderImm n (',' :: renderImm b []))))
  | .Insrwi ra rs n b =>
    kw_insrwi ++ (' ' :: renderReg ra (',' :: renderReg rs (',' ::
      renderImm n (',' :: renderImm b []))))

/-- The text after an operand in a rendered line is either empty or starts
with the comma separator. -/
def sepOk : List Char → Prop
  | [] => True
  | c :: _ => c = ','

/-- The text does not start with a whitespace character (so `multispace0`
consumes nothing from it). -/
def nonWsHead : List Char → Prop
  | [] => True
  | c :: _ => isMultispaceC c = false

/-- C4: `canonicalize` is the identity on the three canonical variants
`Rlwinm`, `Rlwimi`, `Rlwnm`, and is idempotent on every `Opcode`. -/
theorem claim_C4_canonicalize_identity_idempotent :
    (∀ ra rs sh mb me, canonicalize (.Rlwinm ra rs sh mb me) = .Rlwinm ra rs sh mb me) ∧
    (∀ ra rs sh mb me, canonicalize (.Rlwimi ra rs sh mb me) = .Rlwimi ra rs sh mb me) ∧
    (∀ ra rs rb mb me, canonicalize (.Rlwnm ra rs rb mb me) = .Rlwnm ra rs rb mb me) ∧
    (∀ x : Opcode, canonicalize (canonicalize x) = canonicalize x) := by
  refine ⟨fun _ _ _ _ _ => rfl, fun _ _ _ _ _ => rfl, fun _ _ _ _ _ => rfl, fun x => ?_⟩
  cases x <;> rfl

/-- C1: for pseudomnemonic operands in 0–31, `canonicalize` produces exactly
the `sh`/`mb`/`me` fields of the spec §4.1 table (read at the 8-bit field
width) and passes the `ra`/`rs`/`rb` registers through unchanged: it agrees
with the table-transcribed `canonSpec` on every such instruction. -/
theorem claim_C1_canonicalize_table (x : Opcode) (h : ops31 x) :
    canonicalize x = canonSpec x := by
  cases x <;>
    simp only [canonicalize, canonSpec, ops31, add8, sub8, n8,
      Opcode.Rlwinm.injEq, Opcode.Rlwnm.injEq, Opcode.Rlwimi.injEq,
      eq_self_iff_true, true_and, and_true] at h ⊢ <;>
    omega

/-- Witness for C1 at the spec's concrete scenario
`clrlslwi r0,r1,8,3 → rlwinm r0,r1,3,5,28`. -/
theorem claim_C1_witness :
    canonicalize (.Clrlslwi ⟨0⟩ ⟨1⟩ 8 3) = canonSpec (.Clrlslwi ⟨0⟩ ⟨1⟩ 8 3) ∧
    canonicalize (.Clrlslwi ⟨0⟩ ⟨1⟩ 8 3) = .Rlwinm ⟨0⟩ ⟨1⟩ 3 5 28 :=
  ⟨claim_C1_canonicalize_table (.Clrlslwi ⟨0⟩ ⟨1⟩ 8 3) (by constructor <;> decide), by decide⟩

/-- C2: `canonicalize` is total and performs no validation: on any
well-formed 8-bit instruction it returns a well-formed 8-bit instruction,
and at the underflowing input `n = 0` (here `extlwi` with `n = 0`, where
`me = n - 1` wraps) it returns a result whose `me` field is 255, out of the
0–31 range, rather than faulting. -/
theorem claim_C2_canonicalize_total :
    (∀ x : Opcode, wf8 x → wf8 (canonicalize x)) ∧
    canonicalize (.Extlwi ⟨0⟩ ⟨1⟩ 0 5) = .Rlwinm ⟨0⟩ ⟨1⟩ 5 0 255 ∧ ¬ 255 ≤ 31 := by
  refine ⟨fun x hx => ?_, by decide, by decide⟩
  cases x <;>
    simp only [canonicalize, wf8, add8, sub8] at hx ⊢ <;>
    omega

/-- Witness for C2: the totality conjunct applied at `slwi r1,r2,3`. -/
theorem claim_C2_witness : wf8 (canonicalize (.Slwi ⟨1⟩ ⟨2⟩ 3)) :=
  claim_C2_canonicalize_total.1 (.Slwi ⟨1⟩ ⟨2⟩ 3)
    (show (1 : Nat) ≤ 255 ∧ (2 : Nat) ≤ 255 ∧ (3 : Nat) ≤ 255 by decide)

/-- C5: the spec's concrete scenario: `"rlwinm r0,r7,0x10,0x0,0xf"` parses
to `Rlwinm{ra:r0, rs:r7, sh:16, mb:0, me:15}` with no trailing input, and
`highlevel` on that value is exactly `"r0 = (r7 << 16) & MASK(0..15)"`. -/
theorem claim_C5_rlwinm_scenario :
    parse_opcode "rlwinm r0,r7,0x10,0x0,0xf".toList =
      .ok ([], .Rlwinm ⟨0⟩ ⟨7⟩ 16 0 15) ∧
    highlevel (.Rlwinm ⟨0⟩ ⟨7⟩ 16 0 15) = some "r0 = (r7 << 16) & MASK(0..15)" :=
  ⟨rfl, rfl⟩

/-- C6 (code bug): `highlevel` is defined only for `Rlwinm` — on any other
variant the source runs `unimplemented!()`, which panics and aborts the
process instead of signalling a catchable `UnsupportedDescription`
condition.  The panicking arm is modelled as `none`; evaluating at the
failing inputs `Slwi{r3,r4,5}` and a canonical `Rlwnm` exhibits it, while a
canonical `Rlwinm` gets a description. -/
theorem claim_C6_highlevel_aborts :
    highlevel (.Slwi ⟨3⟩ ⟨4⟩ 5) = none ∧
    highlevel (.Rlwnm ⟨1⟩ ⟨2⟩ ⟨3⟩ 0 31) = none ∧
    (highlevel (.Rlwinm ⟨0⟩ ⟨7⟩ 16 0 15)).isSome = true :=
  ⟨rfl, rfl, rfl⟩

/-- C10: on `"slwi r1,r2,0xg"` the malformed hex literal is not an error:
the hex branch of `parse_immediate` is abandoned, the decimal branch
consumes only the leading `0`, and the parse succeeds with immediate `0`
and `"xg"` left as unconsumed trailing input. -/
theorem claim_C10_malformed_hex_not_error :
    parse_immediate "0xg".toList = .ok ("xg".toList, 0) ∧
    parse_opcode "slwi r1,r2,0xg".toList = .ok ("xg".toList, .Slwi ⟨1⟩ ⟨2⟩ 0) :=
  ⟨rfl, rfl⟩

/-- C7 counterexample: the claim says `"0X10"` parses to the immediate 16;
in fact the `tag("0x")` prefix is case-sensitive, so `"0X10"` parses as the
decimal immediate 0 with `"X10"` left unconsumed. -/
theorem claim_C7_counterexample :
    parse_immediate "0X10".toList = .ok ("X10".toList, 0) ∧ (0 : Nat) ≠ 16 :=
  ⟨rfl, by decide⟩

/-- C9 counterexample: the claim says `"bogus r0,r1"` and
`"rlwinm r0,r7,0x10,0x0"` are distinguished as `MnemonicNotRecognized` and
`OperandSyntaxError`; in fact both fail with the identical generic nom
error — `ErrorKind::Tag` at the start of the line, the error of the last
`alt` alternative. -/
theorem claim_C9_counterexample :
    parse_opcode "bogus r0,r1".toList =
      .error ("bogus r0,r1".toList, .Tag) ∧
    parse_opcode "rlwinm r0,r7,0x10,0x0".toList =
      .error ("rlwinm r0,r7,0x10,0x0".toList, .Tag) :=
  ⟨rfl, rfl⟩

/-- Lemma: `parse_rlwinm` fails with a `Tag` error when its keyword is not a
prefix of the input. -/
theorem parse_rlwinm_ne (inp : List Char) (h : isPrefixOfC kw_rlwinm inp = false) :
    parse_rlwinm inp = .error (inp, .Tag) := by
  simp [parse_rlwinm, pseq, tag, h]

/-- Lemma: `parse_rlwimi` fails with a `Tag` error when its keyword is not a
prefix of the input. -/
theorem parse_rlwimi_ne (inp : List Char) (h : isPrefixOfC kw_rlwimi inp = false) :
    parse_rlwimi inp = .error (inp, .Tag) := by
  simp [parse_rlwimi, pseq, tag, h]

/-- Lemma: `parse_rlwnm` fails with a `Tag` error when its keyword is not a
prefix of the input. -/
theorem parse_rlwnm_ne (inp : List Char) (h : isPrefixOfC kw_rlwnm inp = false) :
    parse_rlwnm inp = .error (inp, .Tag) := by
  simp [parse_rlwnm, pseq, tag, h]

/-- Lemma: `parse_extlwi` fails with a `Tag` error when its keyword is not a
prefix of the input. -/
theorem parse_extlwi_ne (inp : List Char) (h : isPrefixOfC kw_extlwi inp = false) :
    parse_extlwi inp = .error (inp, .Tag) := by
  simp [parse_extlwi, pseq, tag, h]

/-- Lemma: `parse_extrwi` fails with a `Tag` error when its keyword is not a
prefix of the input. -/
theorem parse_extrwi_ne (inp : List Char) (h : isPrefixOfC kw_extrwi inp = false) :
    parse_extrwi inp = .error (inp, .Tag) := by
  simp [parse_extrwi, pseq, tag, h]

/-- Lemma: `parse_rotlwi` fails with a `Tag` error when its keyword is not a
prefix of the input. -/
theorem parse_rotlwi_ne (inp : List Char) (h : isPrefixOfC kw_rotlwi inp = false) :
    parse_rotlwi inp = .error (inp, .Tag) := by
  simp [parse_rotlwi, pseq, tag, h]

/-- Lemma: `parse_rotrwi` fails with a `Tag` error when its keyword is not a
prefix of the input. -/
theorem parse_rotrwi_ne (inp : List Char) (h : isPrefixOfC kw_rotrwi inp = false) :
    parse_rotrwi inp = .error (inp, .Tag) := by
  simp [parse_rotrwi, pseq, tag, h]

/-- Lemma: `parse_slwi` fails with a `Tag` error when its keyword is not a
prefix of the input. -/
theorem parse_slwi_ne (inp : List Char) (h : isPrefixOfC kw_slwi inp = false) :
    parse_slwi inp = .error (inp, .Tag) := by
  simp [parse_slwi, pseq, tag, h]

/-- Lemma: `parse_srwi` fails with a `Tag` error when its keyword is not a
prefix of the input. -/
theorem parse_srwi_ne (inp : List Char) (h : isPrefixOfC kw_srwi inp = false) :
    parse_srwi inp = .error (inp, .Tag) := by
  simp [parse_srwi, pseq, tag, h]

/-- Lemma: `parse_clrlwi` fails with a `Tag` error when its keyword is not a
prefix of the input. -/
theorem parse_clrlwi_ne (inp : List Char) (h : isPrefixOfC kw_clrlwi inp = false) :
    parse_clrlwi inp = .error (inp, .Tag) := by
  simp [parse_clrlwi, pseq, tag, h]

/-- Lemma: `parse_clrrwi` fails with a `Tag` error when its keyword is not a
prefix of the input. -/
theorem parse_clrrwi_ne (inp : List Char) (h : isPrefixOfC kw_clrrwi inp = false) :
    parse_clrrwi inp = .error (inp, .Tag) := by
  simp [parse_clrrwi, pseq, tag, h]

/-- Lemma: `parse_clrlslwi` fails with a `Tag` error when its keyword is not a
prefix of the input. -/
theorem parse_clrlslwi_ne (inp : List Char) (h : isPrefixOfC kw_clrlslwi inp = false) :
    parse_clrlslwi inp = .error (inp, .Tag) := by
  simp [parse_clrlslwi, pseq, tag, h]

/-- Lemma: `parse_rotlw` fails with a `Tag` error when its keyword is not a
prefix of the input. -/
theorem parse_rotlw_ne (inp : List Char) (h : isPrefixOfC kw_rotlw inp = false) :
    parse_rotlw inp = .error (inp, .Tag) := by
  simp [parse_rotlw, pseq, tag, h]

/-- Lemma: `parse_inslwi` fails with a `Tag` error when its keyword is not a
prefix of the input. -/
theorem parse_inslwi_ne (inp : List Char) (h : isPrefixOfC kw_inslwi inp = false) :
    parse_inslwi inp = .error (inp, .Tag) := by
  simp [parse_inslwi, pseq, tag, h]

/-- Lemma: `parse_insrwi` fails with a `Tag` error when its keyword is not a
prefix of the input. -/
theorem parse_insrwi_ne (inp : List Char) (h : isPrefixOfC kw_insrwi inp = false) :
    parse_insrwi inp = .error (inp, .Tag) := by
  simp [parse_insrwi, pseq, tag, h]

/-- C3: `parse_opcode` recognizes exactly the fifteen case-sensitive
keywords: for each keyword there is a line parsing to the corresponding
variant, and any line that none of the keywords matches as a prefix (the
spec's dispatch commits on a keyword matching the input prefix) fails to
parse — with the last alternative's `Tag` error. -/
theorem claim_C3_keyword_set :
    parse_opcode "rlwinm r1,r2,3,4,5".toList = .ok ([], .Rlwinm ⟨1⟩ ⟨2⟩ 3 4 5) ∧
    parse_opcode "rlwimi r1,r2,3,4,5".toList = .ok ([], .Rlwimi ⟨1⟩ ⟨2⟩ 3 4 5) ∧
    parse_opcode "rlwnm r1,r2,r3,4,5".toList = .ok ([], .Rlwnm ⟨1⟩ ⟨2⟩ ⟨3⟩ 4 5) ∧
    parse_opcode "extlwi r1,r2,3,4".toList = .ok ([], .Extlwi ⟨1⟩ ⟨2⟩ 3 4) ∧
    parse_opcode "extrwi r1,r2,3,4".toList = .ok ([], .Extrwi ⟨1⟩ ⟨2⟩ 3 4) ∧
    parse_opcode "rotlwi r1,r2,3".toList = .ok ([], .Rotlwi ⟨1⟩ ⟨2⟩ 3) ∧
    parse_opcode "rotrwi r1,r2,3".toList = .ok ([], .Rotrwi ⟨1⟩ ⟨2⟩ 3) ∧
    parse_opcode "slwi r1,r2,3".toList = .ok ([], .Slwi ⟨1⟩ ⟨2⟩ 3) ∧
    parse_opcode "srwi r1,r2,3".toList = .ok ([], .Srwi ⟨1⟩ ⟨2⟩ 3) ∧
    parse_opcode "clrlwi r1,r2,3".toList = .ok ([], .Clrlwi ⟨1⟩ ⟨2⟩ 3) ∧
    parse_opcode "clrrwi r1,r2,3".toList = .ok ([], .Clrrwi ⟨1⟩ ⟨2⟩ 3) ∧
    parse_opcode "clrlslwi r1,r2,8,3".toList = .ok ([], .Clrlslwi ⟨1⟩ ⟨2⟩ 8 3) ∧
    parse_opcode "rotlw r1,r2,r3".toList = .ok ([], .Rotlw ⟨1⟩ ⟨2⟩ ⟨3⟩) ∧
    parse_opcode "inslwi r1,r2,3,4".toList = .ok ([], .Inslwi ⟨1⟩ ⟨2⟩ 3 4) ∧
    parse_opcode "insrwi r1,r2,3,4".toList = .ok ([], .Insrwi ⟨1⟩ ⟨2⟩ 3 4) ∧
    (∀ inp : List Char, (∀ kw ∈ keywords, isPrefixOfC kw inp = false) →
      parse_opcode inp = .error (inp, .Tag)) := by
  refine ⟨rfl, rfl, rfl, rfl, rfl, rfl, rfl, rfl, rfl, rfl, rfl, rfl, rfl, rfl, rfl,
    fun inp h => ?_⟩
  have h1 := h kw_rlwinm (by simp [keywords])
  have h2 := h kw_rlwimi (by simp [keywords])
  have h3 := h kw_rlwnm (by simp [keywords])
  have h4 := h kw_extlwi (by simp [keywords])
  have h5 := h kw_extrwi (by simp [keywords])
  have h6 := h kw_rotlwi (by simp [keywords])
  have h7 := h kw_rotrwi (by simp [keywords])
  have h8 := h kw_slwi (by simp [keywords])
  have h9 := h kw_srwi (by simp [keywords])
  have h10 := h kw_clrlwi (by simp [keywords])
  have h11 := h kw_clrrwi (by simp [keywords])
  have h12 := h kw_clrlslwi (by simp [keywords])
  have h13 := h kw_rotlw (by simp [keywords])
  have h14 := h kw_inslwi (by simp [keywords])
  have h15 := h kw_insrwi (by simp [keywords])
  simp [parse_opcode, palt,
    parse_rlwinm_ne inp h1, parse_rlwimi_ne inp h2, parse_rlwnm_ne inp h3,
    parse_extlwi_ne inp h4, parse_extrwi_ne inp h5, parse_rotlwi_ne inp h6,
    parse_rotrwi_ne inp h7, parse_slwi_ne inp h8, parse_srwi_ne inp h9,
    parse_clrlwi_ne inp h10, parse_clrrwi_ne inp h11, parse_clrlslwi_ne inp h12,
    parse_rotlw_ne inp h13, parse_inslwi_ne inp h14, parse_insrwi_ne inp h15]

/-- Witness for C3: the non-keyword line `"zzz r1,r2"` fails to parse. -/
theorem claim_C3_witness :
    parse_opcode "zzz r1,r2".toList = .error ("zzz r1,r2".toList, .Tag) :=
  claim_C3_keyword_set.2.2.2.2.2.2.2.2.2.2.2.2.2.2.2 "zzz r1,r2".toList (by decide)

/-- A decimal digit character built by `digitChar` is in the digit class. -/
theorem digitChar_isDigit (d : Nat) (h : d < 10) : isDigitC (digitChar d) = true := by
  interval_cases d <;> decide

/-- Lemma: `decCharVal` inverts `digitChar` on single digits. -/
theorem digitChar_val (d : Nat) (h : d < 10) : decCharVal (digitChar d) = d := by
  interval_cases d <;> decide

/-- A hex digit character built by `hexChar` is in the hex digit class. -/
theorem hexChar_isHex (d : Nat) (h : d < 16) : isHexDigitC (hexChar d) = true := by
  interval_cases d <;> decide

/-- Lemma: `hexCharVal` inverts `hexChar` on single hex digits. -/
theorem hexChar_val (d : Nat) (h : d < 16) : hexCharVal (hexChar d) = d := by
  interval_cases d <;> decide

/-- Every character of a `digitsBAux` expansion is in the digit class
rendered by `dc`. -/
theorem digitsBAux_all {b : Nat} {dc : Nat → Char} {cls : Char → Bool}
    (hb : 1 ≤ b) (hdc : ∀ d, d < b → cls (dc d) = true) :
    ∀ fuel n, ∀ c ∈ digitsBAux b dc fuel n, cls c = true := by
  intro fuel
  induction fuel with
  | zero => intro n c hc; simp [digitsBAux] at hc
  | succ fuel ih =>
    intro n c hc
    simp only [digitsBAux] at hc
    by_cases hnb : n < b
    · rw [if_pos hnb] at hc
      simp only [List.mem_singleton] at hc
      subst hc
      exact hdc n hnb
    · rw [if_neg hnb] at hc
      rcases List.mem_append.1 hc with hc | hc
      · exact ih _ c hc
      · simp only [List.mem_singleton] at hc
        subst hc
        exact hdc _ (Nat.mod_lt _ (by omega))

/-- A `digitsBAux` expansion with positive fuel is nonempty. -/
theorem digitsBAux_ne_nil {b : Nat} {dc : Nat → Char} (fuel n : Nat)
    (h : 0 < fuel) : digitsBAux b dc fuel n ≠ [] := by
  cases fuel with
  | zero => omega
  | succ fuel =>
    simp only [digitsBAux]
    by_cases hnb : n < b
    · rw [if_pos hnb]; simp
    · rw [if_neg hnb]; simp

/-- Reading back a `digitsBAux` expansion with `baseVal` recovers the
number, provided the digit renderer and reader invert each other. -/
theorem digitsBAux_val {b : Nat} {dc : Nat → Char} {vf : Char → Nat}
    (hb : 2 ≤ b) (hdc : ∀ d, d < b → vf (dc d) = d) :
    ∀ fuel n, n < fuel → baseVal b vf (digitsBAux b dc fuel n) = n := by
  intro fuel
  induction fuel with
  | zero => intro n hn; omega
  | succ fuel ih =>
    intro n hn
    simp only [digitsBAux]
    by_cases hnb : n < b
    · rw [if_pos hnb]
      simp only [baseVal, List.foldl]
      rw [hdc n hnb]
      omega
    · rw [if_neg hnb]
      have hstep : baseVal b vf (digitsBAux b dc fuel (n / b) ++ [dc (n % b)]) =
          b * baseVal b vf (digitsBAux b dc fuel (n / b)) + vf (dc (n % b)) := by
        simp [baseVal, List.foldl_append]
      have hdiv : n / b < fuel := by
        have h1 : n / b < n := Nat.div_lt_self (by omega) (by omega)
        omega
      rw [hstep, ih (n / b) hdiv, hdc _ (Nat.mod_lt _ (by omega))]
      exact Nat.div_add_mod n b

/-- Every character of `natDigits` is a decimal digit. -/
theorem natDigits_all (a : Nat) : ∀ c ∈ natDigits a, isDigitC c = true :=
  digitsBAux_all (by omega) (fun d hd => digitChar_isDigit d hd) (a + 1) a

/-- Lemma: `natDigits` is never empty. -/
theorem natDigits_ne_nil (a : Nat) : natDigits a ≠ [] :=
  digitsBAux_ne_nil (a + 1) a (by omega)

/-- Reading `natDigits a` back as a decimal numeral gives `a`. -/
theorem natDigits_val (a : Nat) : baseVal 10 decCharVal (natDigits a) = a :=
  digitsBAux_val (by omega) (fun d hd => digitChar_val d hd) (a + 1) a (by omega)

/-- Every character of `hexDigitsL` is a hex digit. -/
theorem hexDigitsL_all (a : Nat) : ∀ c ∈ hexDigitsL a, isHexDigitC c = true :=
  digitsBAux_all (by omega) (fun d hd => hexChar_isHex d hd) (a + 1) a

/-- Lemma: `hexDigitsL` is never empty. -/
theorem hexDigitsL_ne_nil (a : Nat) : hexDigitsL a ≠ [] :=
  digitsBAux_ne_nil (a + 1) a (by omega)

/-- Reading `hexDigitsL a` back as a hexadecimal numeral gives `a`. -/
theorem hexDigitsL_val (a : Nat) : baseVal 16 hexCharVal (hexDigitsL a) = a :=
  digitsBAux_val (by omega) (fun d hd => hexChar_val d hd) (a + 1) a (by omega)

/-- A list is a `isPrefixOfC`-prefix of itself followed by anything. -/
theorem isPrefixOfC_self_append : ∀ t rest : List Char, isPrefixOfC t (t ++ rest) = true := by
  intro t
  induction t with
  | nil => intro rest; rfl
  | cons c cs ih => intro rest; simp only [List.cons_append, isPrefixOfC, if_pos rfl]; exact ih rest

/-- Lemma: `tag` consumes exactly its literal from the front of the input. -/
theorem tag_self (t rest : List Char) : tag t (t ++ rest) = .ok (rest, t) := by
  rw [tag, if_pos (isPrefixOfC_self_append t rest), List.drop_left]

/-- Lemma: `takeWhile` of an all-`p` block followed by a separator-headed tail is
exactly the block. -/
theorem takeWhile_append_sep {p : Char → Bool} (hp : p ',' = false) :
    ∀ ds rest : List Char, (∀ c ∈ ds, p c = true) → sepOk rest →
      (ds ++ rest).takeWhile p = ds := by
  intro ds
  induction ds with
  | nil =>
    intro rest _ hsep
    cases rest with
    | nil => rfl
    | cons c t =>
      have hc : c = ',' := hsep
      subst hc
      simp [List.takeWhile_cons, hp]
  | cons d ds ih =>
    intro rest hall hsep
    simp only [List.cons_append, List.takeWhile_cons, hall d (by simp)]
    rw [ih rest (fun c hc => hall c (by simp [hc])) hsep]
    simp

/-- Lemma: `digit1` on a rendered digit block followed by a separator consumes
exactly the block. -/
theorem digit1_render (ds rest : List Char) (hne : ds ≠ [])
    (hall : ∀ c ∈ ds, isDigitC c = true) (hsep : sepOk rest) :
    digit1 (ds ++ rest) = .ok (rest, ds) := by
  have htake : (ds ++ rest).takeWhile isDigitC = ds :=
    takeWhile_append_sep (by decide) ds rest hall hsep
  rw [digit1, htake, if_neg hne, List.drop_left]

/-- Lemma: `hex_digit1` on a rendered hex block followed by a separator consumes
exactly the block. -/
theorem hex_digit1_render (ds rest : List Char) (hne : ds ≠ [])
    (hall : ∀ c ∈ ds, isHexDigitC c = true) (hsep : sepOk rest) :
    hex_digit1 (ds ++ rest) = .ok (rest, ds) := by
  have htake : (ds ++ rest).takeWhile isHexDigitC = ds :=
    takeWhile_append_sep (by decide) ds rest hall hsep
  rw [hex_digit1, htake, if_neg hne, List.drop_left]

/-- Lemma: `dropWhile` of the whitespace class is the identity on non-whitespace-
headed text. -/
theorem dropWhile_ws_id (rest : List Char) (h : nonWsHead rest) :
    rest.dropWhile isMultispaceC = rest := by
  cases rest with
  | nil => rfl
  | cons c t =>
    have hc : isMultispaceC c = false := h
    simp [List.dropWhile_cons, hc]

/-- Lemma: `whitespace` eats the single separating space of a rendered line. -/
theorem whitespace_cons_space (rest : List Char) (h : nonWsHead rest) :
    whitespace (' ' :: rest) = .ok (rest, ()) := by
  rw [whitespace, List.dropWhile_cons, if_pos (by decide), dropWhile_ws_id rest h]

/-- Lemma: `comma_sep` consumes exactly the comma of a rendered line. -/
theorem comma_sep_cons (rest : List Char) (h : nonWsHead rest) :
    comma_sep (',' :: rest) = .ok (rest, ()) := by
  rw [comma_sep, List.dropWhile_cons, if_neg (by decide)]
  have htag : tag [','] (',' :: rest) = .ok (rest, [',']) := by
    rw [tag, if_pos (by simp [isPrefixOfC])]
    rfl
  rw [htag]
  simp only [pseq]
  rw [dropWhile_ws_id rest h]

/-- A rendered register body starts with `r`, a non-whitespace character. -/
theorem nonWsHead_renderReg (r : Register) (rest : List Char) :
    nonWsHead (renderReg r rest) := rfl

/-- A rendered decimal immediate starts with a digit, which is not
whitespace. -/
theorem nonWsHead_renderImm (n : Nat) (rest : List Char) :
    nonWsHead (renderImm n rest) := by
  rw [renderImm]
  cases hds : natDigits n with
  | nil => exact absurd hds (natDigits_ne_nil n)
  | cons d ds =>
    have hd : isDigitC d = true := natDigits_all n d (by rw [hds]; simp)
    show isMultispaceC d = false
    simp only [isDigitC, isMultispaceC, decide_eq_true_eq] at hd ⊢
    rw [decide_eq_false_iff_not]
    omega

/-- Lemma: `parse_register` on a rendered register recovers exactly that
register. -/
theorem parse_register_render (r : Register) (h : r.val ≤ 255) (rest : List Char)
    (hsep : sepOk rest) : parse_register (renderReg r rest) = .ok (rest, r) := by
  rw [renderReg, parse_register, tag_self]
  simp only [pseq]
  rw [digit1_render (natDigits r.val) rest (natDigits_ne_nil _) (natDigits_all _) hsep]
  simp only [pseq]
  rw [decValue?, natDigits_val, if_pos h]

/-- The lowercase hex prefix `0x` never matches a rendered decimal
immediate followed by a separator. -/
theorem prefix0x_false (a : Nat) (rest : List Char) (hsep : sepOk rest) :
    isPrefixOfC ['0', 'x'] (natDigits a ++ rest) = false := by
  cases hds : natDigits a with
  | nil => exact absurd hds (natDigits_ne_nil a)
  | cons d ds =>
    show isPrefixOfC ['0', 'x'] (d :: (ds ++ rest)) = false
    by_cases h0 : ('0' : Char) = d
    · simp only [isPrefixOfC, if_pos h0]
      cases hds2 : ds with
      | nil =>
        show isPrefixOfC ['x'] rest = false
        cases rest with
        | nil => rfl
        | cons c t =>
          have hc : c = ',' := hsep
          subst hc
          rfl
      | cons d2 ds2 =>
        show isPrefixOfC ['x'] (d2 :: (ds2 ++ rest)) = false
        have hd2 : isDigitC d2 = true := by
          refine natDigits_all a d2 ?_
          rw [hds, hds2]
          simp
        have hxd : ('x' : Char) ≠ d2 := by
          intro he
          rw [← he] at hd2
          exact absurd hd2 (by decide)
        simp only [isPrefixOfC, if_neg hxd]
    · simp only [isPrefixOfC, if_neg h0]

/-- Lemma: `parse_immediate` on a rendered decimal immediate recovers its value:
the hex branch is rejected by the `0x` tag, the decimal branch reads the
digits. -/
theorem parse_immediate_dec (a : Nat) (ha : a ≤ 255) (rest : List Char)
    (hsep : sepOk rest) : parse_immediate (renderImm a rest) = .ok (rest, a) := by
  rw [renderImm, parse_immediate]
  rw [show tag ['0', 'x'] (natDigits a ++ rest) = .error (natDigits a ++ rest, .Tag) from by
    rw [tag]
    simp [prefix0x_false a rest hsep]]
  simp only [pseq, palt]
  rw [digit1_render (natDigits a) rest (natDigits_ne_nil _) (natDigits_all _) hsep]
  simp only [pseq]
  rw [decValue?, natDigits_val, if_pos ha]

/-- Lemma: `parse_immediate` on a rendered lowercase-hex immediate recovers its
value through the hex branch. -/
theorem parse_immediate_hex (a : Nat) (ha : a ≤ 255) (rest : List Char)
    (hsep : sepOk rest) :
    parse_immediate (['0', 'x'] ++ (hexDigitsL a ++ rest)) = .ok (rest, a) := by
  rw [parse_immediate, tag_self]
  simp only [pseq]
  rw [hex_digit1_render (hexDigitsL a) rest (hexDigitsL_ne_nil _) (hexDigitsL_all _) hsep]
  simp only [pseq]
  rw [hexValue?, hexDigitsL_val, if_pos ha]
  rfl

/-- Lemma: `parse_register` before a comma separator. -/
theorem parse_register_render_comma (r : Register) (h : r.val ≤ 255) (t : List Char) :
    parse_register (renderReg r (',' :: t)) = .ok (',' :: t, r) :=
  parse_register_render r h (',' :: t) rfl

/-- Lemma: `parse_register` at the end of the line. -/
theorem parse_register_render_nil (r : Register) (h : r.val ≤ 255) :
    parse_register (renderReg r []) = .ok ([], r) :=
  parse_register_render r h [] trivial

/-- Lemma: `parse_immediate` on a decimal immediate before a comma separator. -/
theorem parse_immediate_dec_comma (a : Nat) (ha : a ≤ 255) (t : List Char) :
    parse_immediate (renderImm a (',' :: t)) = .ok (',' :: t, a) :=
  parse_immediate_dec a ha (',' :: t) rfl

/-- Lemma: `parse_immediate` on a decimal immediate at the end of the line. -/
theorem parse_immediate_dec_nil (a : Nat) (ha : a ≤ 255) :
    parse_immediate (renderImm a []) = .ok ([], a) :=
  parse_immediate_dec a ha [] trivial

/-- Lemma: `parse_rlwinm` parses back the rendered `Rlwinm` line exactly. -/
theorem parse_rlwinm_render (ra rs : Register) (sh mb me : Nat)
    (hra : ra.val ≤ 255) (hrs : rs.val ≤ 255) (hsh : sh ≤ 255) (hmb : mb ≤ 255) (hme : me ≤ 255) :
    parse_rlwinm (renderOp (.Rlwinm ra rs sh mb me)) = .ok ([], .Rlwinm ra rs sh mb me) := by
  show parse_rlwinm (kw_rlwinm ++ (' ' :: renderReg ra (',' :: renderReg rs (',' :: renderImm sh (',' :: renderImm mb (',' :: renderImm me ([]))))))) = _
  rw [parse_rlwinm, tag_self]
  simp only [pseq]
  rw [whitespace_cons_space _ (nonWsHead_renderReg ra _)]
  simp only [pseq]
  rw [parse_register_render_comma ra hra _]
  simp only [pseq]
  rw [comma_sep_cons _ (nonWsHead_renderReg rs _)]
  simp only [pseq]
  rw [parse_register_render_comma rs hrs _]
  simp only [pseq]
  rw [comma_sep_cons _ (nonWsHead_renderImm sh _)]
  simp only [pseq]
  rw [parse_immediate_dec_comma sh hsh _]
  simp only [pseq]
  rw [comma_sep_cons _ (nonWsHead_renderImm mb _)]
  simp only [pseq]
  rw [parse_immediate_dec_comma mb hmb _]
  simp only [pseq]
  rw [comma_sep_cons _ (nonWsHead_renderImm me _)]
  simp only [pseq]
  rw [parse_immediate_dec_nil me hme]

/-- Lemma: `parse_rlwimi` parses back the rendered `Rlwimi` line exactly. -/
theorem parse_rlwimi_render (ra rs : Register) (sh mb me : Nat)
    (hra : ra.val ≤ 255) (hrs : rs.val ≤ 255) (hsh : sh ≤ 255) (hmb : mb ≤ 255) (hme : me ≤ 255) :
    parse_rlwimi (renderOp (.Rlwimi ra rs sh mb me)) = .ok ([], .Rlwimi ra rs sh mb me) := by
  show parse_rlwimi (kw_rlwimi ++ (' ' :: renderReg ra (',' :: renderReg rs (',' :: renderImm sh (',' :: renderImm mb (',' :: renderImm me ([]))))))) = _
  rw [parse_rlwimi, tag_self]
  simp only [pseq]
  rw [whitespace_cons_space _ (nonWsHead_renderReg ra _)]
  simp only [pseq]
  rw [parse_register_render_comma ra hra _]
  simp only [pseq]
  rw [comma_sep_cons _ (nonWsHead_renderReg rs _)]
  simp only [pseq]
  rw [parse_register_render_comma rs hrs _]
  simp only [pseq]
  rw [comma_sep_cons _ (nonWsHead_renderImm sh _)]
  simp only [pseq]
  rw [parse_immediate_dec_comma sh hsh _]
  simp only [pseq]
  rw [comma_sep_cons _ (nonWsHead_renderImm mb _)]
  simp only [pseq]
  rw [parse_immediate_dec_comma mb hmb _]
  simp only [pseq]
  rw [comma_sep_cons _ (nonWsHead_renderImm me _)]
  simp only [pseq]
  rw [parse_immediate_dec_nil me hme]

/-- Lemma: `parse_rlwnm` parses back the rendered `Rlwnm` line exactly. -/
theorem parse_rlwnm_render (ra rs rb : Register) (mb me : Nat)
    (hra : ra.val ≤ 255) (hrs : rs.val ≤ 255) (hrb : rb.val ≤ 255) (hmb : mb ≤ 255) (hme : me ≤ 255) :
    parse_rlwnm (renderOp (.Rlwnm ra rs rb mb me)) = .ok ([], .Rlwnm ra rs rb mb me) := by
  show parse_rlwnm (kw_rlwnm ++ (' ' :: renderReg ra (',' :: renderReg rs (',' :: renderReg rb (',' :: renderImm mb (',' :: renderImm me ([]))))))) = _
  rw [parse_rlwnm, tag_self]
  simp only [pseq]
  rw [whitespace_cons_space _ (nonWsHead_renderReg ra _)]
  simp only [pseq]
  rw [parse_register_render_comma ra hra _]
  simp only [pseq]
  rw [comma_sep_cons _ (nonWsHead_renderReg rs _)]
  simp only [pseq]
  rw [parse_register_render_comma rs hrs _]
  simp only [pseq]
  rw [comma_sep_cons _ (nonWsHead_renderReg rb _)]
  simp only [pseq]
  rw [parse_register_render_comma rb hrb _]
  simp only [pseq]
  rw [comma_sep_cons _ (nonWsHead_renderImm mb _)]
  simp only [pseq]
  rw [parse_immediate_dec_comma mb hmb _]
  simp only [pseq]
  rw [comma_sep_cons _ (nonWsHead_renderImm me _)]
  simp only [pseq]
  rw [parse_immediate_dec_nil me hme]

/-- Lemma: `parse_extlwi` parses back the rendered `Extlwi` line exactly. -/
theorem parse_extlwi_render (ra rs : Register) (n b : Nat)
    (hra : ra.val ≤ 255) (hrs : rs.val ≤ 255) (hn : n ≤ 255) (hb : b ≤ 255) :
    parse_extlwi (renderOp (.Extlwi ra rs n b)) = .ok ([], .Extlwi ra rs n b) := by
  show parse_extlwi (kw_extlwi ++ (' ' :: renderReg ra (',' :: renderReg rs (',' :: renderImm n (',' :: renderImm b ([])))))) = _
  rw [parse_extlwi, tag_self]
  simp only [pseq]
  rw [whitespace_cons_space _ (nonWsHead_renderReg ra _)]
  simp only [pseq]
  rw [parse_register_render_comma ra hra _]
  simp only [pseq]
  rw [comma_sep_cons _ (nonWsHead_renderReg rs _)]
  simp only [pseq]
  rw [parse_register_render_comma rs hrs _]
  simp only [pseq]
  rw [comma_sep_cons _ (nonWsHead_renderImm n _)]
  simp only [pseq]
  rw [parse_immediate_dec_comma n hn _]
  simp only [pseq]
  rw [comma_sep_cons _ (nonWsHead_renderImm b _)]
  simp only [pseq]
  rw [parse_immediate_dec_nil b hb]

/-- Lemma: `parse_extrwi` parses back the rendered `Extrwi` line exactly. -/
theorem parse_extrwi_render (ra rs : Register) (n b : Nat)
    (hra : ra.val ≤ 255) (hrs : rs.val ≤ 255) (hn : n ≤ 255) (hb : b ≤ 255) :
    parse_extrwi (renderOp (.Extrwi ra rs n b)) = .ok ([], .Extrwi ra rs n b) := by
  show parse_extrwi (kw_extrwi ++ (' ' :: renderReg ra (',' :: renderReg rs (',' :: renderImm n (',' :: renderImm b ([])))))) = _
  rw [parse_extrwi, tag_self]
  simp only [pseq]
  rw [whitespace_cons_space _ (nonWsHead_renderReg ra _)]
  simp only [pseq]
  rw [parse_register_render_comma ra hra _]
  simp only [pseq]
  rw [comma_sep_cons _ (nonWsHead_renderReg rs _)]
  simp only [pseq]
  rw [parse_register_render_comma rs hrs _]
  simp only [pseq]
  rw [comma_sep_cons _ (nonWsHead_renderImm n _)]
  simp only [pseq]
  rw [parse_immediate_dec_comma n hn _]
  simp only [pseq]
  rw [comma_sep_cons _ (nonWsHead_renderImm b _)]
  simp only [pseq]
  rw [parse_immediate_dec_nil b hb]

/-- Lemma: `parse_rotlwi` parses back the rendered `Rotlwi` line exactly. -/
theorem parse_rotlwi_render (ra rs : Register) (n : Nat)
    (hra : ra.val ≤ 255) (hrs : rs.val ≤ 255) (hn : n ≤ 255) :
    parse_rotlwi (renderOp (.Rotlwi ra rs n)) = .ok ([], .Rotlwi ra rs n) := by
  show parse_rotlwi (kw_rotlwi ++ (' ' :: renderReg ra (',' :: renderReg rs (',' :: renderImm n ([]))))) = _
  rw [parse_rotlwi, tag_self]
  simp only [pseq]
  rw [whitespace_cons_space _ (nonWsHead_renderReg ra _)]
  simp only [pseq]
  rw [parse_register_render_comma ra hra _]
  simp only [pseq]
  rw [comma_sep_cons _ (nonWsHead_renderReg rs _)]
  simp only [pseq]
  rw [parse_register_render_comma rs hrs _]
  simp only [pseq]
  rw [comma_sep_cons _ (nonWsHead_renderImm n _)]
  simp only [pseq]
  rw [parse_immediate_dec_nil n hn]

/-- Lemma: `parse_rotrwi` parses back the rendered `Rotrwi` line exactly. -/
theorem parse_rotrwi_render (ra rs : Register) (n : Nat)
    (hra : ra.val ≤ 255) (hrs : rs.val ≤ 255) (hn : n ≤ 255) :
    parse_rotrwi (renderOp (.Rotrwi ra rs n)) = .ok ([], .Rotrwi ra rs n) := by
  show parse_rotrwi (kw_rotrwi ++ (' ' :: renderReg ra (',' :: renderReg rs (',' :: renderImm n ([]))))) = _
  rw [parse_rotrwi, tag_self]
  simp only [pseq]
  rw [whitespace_cons_space _ (nonWsHead_renderReg ra _)]
  simp only [pseq]
  rw [parse_register_render_comma ra hra _]
  simp only [pseq]
  rw [comma_sep_cons _ (nonWsHead_renderReg rs _)]
  simp only [pseq]
  rw [parse_register_render_comma rs hrs _]
  simp only [pseq]
  rw [comma_sep_cons _ (nonWsHead_renderImm n _)]
  simp only [pseq]
  rw [parse_immediate_dec_nil n hn]

/-- Lemma: `parse_slwi` parses back the rendered `Slwi` line exactly. -/
theorem parse_slwi_render (ra rs : Register) (n : Nat)
    (hra : ra.val ≤ 255) (hrs : rs.val ≤ 255) (hn : n ≤ 255) :
    parse_slwi (renderOp (.Slwi ra rs n)) = .ok ([], .Slwi ra rs n) := by
  show parse_slwi (kw_slwi ++ (' ' :: renderReg ra (',' :: renderReg rs (',' :: renderImm n ([]))))) = _
  rw [parse_slwi, tag_self]
  simp only [pseq]
  rw [whitespace_cons_space _ (nonWsHead_renderReg ra _)]
  simp only [pseq]
  rw [parse_register_render_comma ra hra _]
  simp only [pseq]
  rw [comma_sep_cons _ (nonWsHead_renderReg rs _)]
  simp only [pseq]
  rw [parse_register_render_comma rs hrs _]
  simp only [pseq]
  rw [comma_sep_cons _ (nonWsHead_renderImm n _)]
  simp only [pseq]
  rw [parse_immediate_dec_nil n hn]

/-- Lemma: `parse_srwi` parses back the rendered `Srwi` line exactly. -/
theorem parse_srwi_render (ra rs : Register) (n : Nat)
    (hra : ra.val ≤ 255) (hrs : rs.val ≤ 255) (hn : n ≤ 255) :
    parse_srwi (renderOp (.Srwi ra rs n)) = .ok ([], .Srwi ra rs n) := by
  show parse_srwi (kw_srwi ++ (' ' :: renderReg ra (',' :: renderReg rs (',' :: renderImm n ([]))))) = _
  rw [parse_srwi, tag_self]
  simp only [pseq]
  rw [whitespace_cons_space _ (nonWsHead_renderReg ra _)]
  simp only [pseq]
  rw [parse_register_render_comma ra hra _]
  simp only [pseq]
  rw [comma_sep_cons _ (nonWsHead_renderReg rs _)]
  simp only [pseq]
  rw [parse_register_render_comma rs hrs _]
  simp only [pseq]
  rw [comma_sep_cons _ (nonWsHead_renderImm n _)]
  simp only [pseq]
  rw [parse_immediate_dec_nil n hn]

/-- Lemma: `parse_clrlwi` parses back the rendered `Clrlwi` line exactly. -/
theorem parse_clrlwi_render (ra rs : Register) (n : Nat)
    (hra : ra.val ≤ 255) (hrs : rs.val ≤ 255) (hn : n ≤ 255) :
    parse_clrlwi (renderOp (.Clrlwi ra rs n)) = .ok ([], .Clrlwi ra rs n) := by
  show parse_clrlwi (kw_clrlwi ++ (' ' :: renderReg ra (',' :: renderReg rs (',' :: renderImm n ([]))))) = _
  rw [parse_clrlwi, tag_self]
  simp only [pseq]
  rw [whitespace_cons_space _ (nonWsHead_renderReg ra _)]
  simp only [pseq]
  rw [parse_register_render_comma ra hra _]
  simp only [pseq]
  rw [comma_sep_cons _ (nonWsHead_renderReg rs _)]
  simp only [pseq]
  rw [parse_register_render_comma rs hrs _]
  simp only [pseq]
  rw [comma_sep_cons _ (nonWsHead_renderImm n _)]
  simp only [pseq]
  rw [parse_immediate_dec_nil n hn]

/-- Lemma: `parse_clrrwi` parses back the rendered `Clrrwi` line exactly. -/
theorem parse_clrrwi_render (ra rs : Register) (n : Nat)
    (hra : ra.val ≤ 255) (hrs : rs.val ≤ 255) (hn : n ≤ 255) :
    parse_clrrwi (renderOp (.Clrrwi ra rs n)) = .ok ([], .Clrrwi ra rs n) := by
  show parse_clrrwi (kw_clrrwi ++ (' ' :: renderReg ra (',' :: renderReg rs (',' :: renderImm n ([]))))) = _
  rw [parse_clrrwi, tag_self]
  simp only [pseq]
  rw [whitespace_cons_space _ (nonWsHead_renderReg ra _)]
  simp only [pseq]
  rw [parse_register_render_comma ra hra _]
  simp only [pseq]
  rw [comma_sep_cons _ (nonWsHead_renderReg rs _)]
  simp only [pseq]
  rw [parse_register_render_comma rs hrs _]
  simp only [pseq]
  rw [comma_sep_cons _ (nonWsHead_renderImm n _)]
  simp only [pseq]
  rw [parse_immediate_dec_nil n hn]

/-- Lemma: `parse_clrlslwi` parses back the rendered `Clrlslwi` line exactly. -/
theorem parse_clrlslwi_render (ra rs : Register) (b n : Nat)
    (hra : ra.val ≤ 255) (hrs : rs.val ≤ 255) (hb : b ≤ 255) (hn : n ≤ 255) :
    parse_clrlslwi (renderOp (.Clrlslwi ra rs b n)) = .ok ([], .Clrlslwi ra rs b n) := by
  show parse_clrlslwi (kw_clrlslwi ++ (' ' :: renderReg ra (',' :: renderReg rs (',' :: renderImm b (',' :: renderImm n ([])))))) = _
  rw [parse_clrlslwi, tag_self]
  simp only [pseq]
  rw [whitespace_cons_space _ (nonWsHead_renderReg ra _)]
  simp only [pseq]
  rw [parse_register_render_comma ra hra _]
  simp only [pseq]
  rw [comma_sep_cons _ (nonWsHead_renderReg rs _)]
  simp only [pseq]
  rw [parse_register_render_comma rs hrs _]
  simp only [pseq]
  rw [comma_sep_cons _ (nonWsHead_renderImm b _)]
  simp only [pseq]
  rw [parse_immediate_dec_comma b hb _]
  simp only [pseq]
  rw [comma_sep_cons _ (nonWsHead_renderImm n _)]
  simp only [pseq]
  rw [parse_immediate_dec_nil n hn]

/-- Lemma: `parse_rotlw` parses back the rendered `Rotlw` line exactly. -/
theorem parse_rotlw_render (ra rs rb : Register)
    (hra : ra.val ≤ 255) (hrs : rs.val ≤ 255) (hrb : rb.val ≤ 255) :
    parse_rotlw (renderOp (.Rotlw ra rs rb)) = .ok ([], .Rotlw ra rs rb) := by
  show parse_rotlw (kw_rotlw ++ (' ' :: renderReg ra (',' :: renderReg rs (',' :: renderReg rb ([]))))) = _
  rw [parse_rotlw, tag_self]
  simp only [pseq]
  rw [whitespace_cons_space _ (nonWsHead_renderReg ra _)]
  simp only [pseq]
  rw [parse_register_render_comma ra hra _]
  simp only [pseq]
  rw [comma_sep_cons _ (nonWsHead_renderReg rs _)]
  simp only [pseq]
  rw [parse_register_render_comma rs hrs _]
  simp only [pseq]
  rw [comma_sep_cons _ (nonWsHead_renderReg rb _)]
  simp only [pseq]
  rw [parse_register_render_nil rb hrb]

/-- Lemma: `parse_inslwi` parses back the rendered `Inslwi` line exactly. -/
theorem parse_inslwi_render (ra rs : Register) (n b : Nat)
    (hra : ra.val ≤ 255) (hrs : rs.val ≤ 255) (hn : n ≤ 255) (hb : b ≤ 255) :
    parse_inslwi (renderOp (.Inslwi ra rs n b)) = .ok ([], .Inslwi ra rs n b) := by
  show parse_inslwi (kw_inslwi ++ (' ' :: renderReg ra (',' :: renderReg rs (',' :: renderImm n (',' :: renderImm b ([])))))) = _
  rw [parse_inslwi, tag_self]
  simp only [pseq]
  rw [whitespace_cons_space _ (nonWsHead_renderReg ra _)]
  simp only [pseq]
  rw [parse_register_render_comma ra hra _]
  simp only [pseq]
  rw [comma_sep_cons _ (nonWsHead_renderReg rs _)]
  simp only [pseq]
  rw [parse_register_render_comma rs hrs _]
  simp only [pseq]
  rw [comma_sep_cons _ (nonWsHead_renderImm n _)]
  simp only [pseq]
  rw [parse_immediate_dec_comma n hn _]
  simp only [pseq]
  rw [comma_sep_cons _ (nonWsHead_renderImm b _)]
  simp only [pseq]
  rw [parse_immediate_dec_nil b hb]

/-- Lemma: `parse_insrwi` parses back the rendered `Insrwi` line exactly. -/
theorem parse_insrwi_render (ra rs : Register) (n b : Nat)
    (hra : ra.val ≤ 255) (hrs : rs.val ≤ 255) (hn : n ≤ 255) (hb : b ≤ 255) :
    parse_insrwi (renderOp (.Insrwi ra rs n b)) = .ok ([], .Insrwi ra rs n b) := by
  show parse_insrwi (kw_insrwi ++ (' ' :: renderReg ra (',' :: renderReg rs (',' :: renderImm n (',' :: renderImm b ([])))))) = _
  rw [parse_insrwi, tag_self]
  simp only [pseq]
  rw [whitespace_cons_space _ (nonWsHead_renderReg ra _)]
  simp only [pseq]
  rw [parse_register_render_comma ra hra _]
  simp only [pseq]
  rw [comma_sep_cons _ (nonWsHead_renderReg rs _)]
  simp only [pseq]
  rw [parse_register_render_comma rs hrs _]
  simp only [pseq]
  rw [comma_sep_cons _ (nonWsHead_renderImm n _)]
  simp only [pseq]
  rw [parse_immediate_dec_comma n hn _]
  simp only [pseq]
  rw [comma_sep_cons _ (nonWsHead_renderImm b _)]
  simp only [pseq]
  rw [parse_immediate_dec_nil b hb]

/-- C8: round-trip: rendering any well-formed instruction in its mnemonic's
syntax and parsing it back yields exactly that instruction, with no
trailing input. -/
theorem claim_C8_roundtrip (x : Opcode) (h : wf8 x) :
    parse_opcode (renderOp x) = .ok ([], x) := by
  cases x with
  | Rlwinm ra rs sh mb me =>
    obtain ⟨h1, h2, h3, h4, h5⟩ := h
    simp only [parse_opcode,
      palt,
      parse_rlwinm_render ra rs sh mb me h1 h2 h3 h4 h5]
  | Rlwimi ra rs sh mb me =>
    obtain ⟨h1, h2, h3, h4, h5⟩ := h
    simp only [parse_opcode,
      palt,
      parse_rlwinm_ne (renderOp (.Rlwimi ra rs sh mb me)) (by rfl),
      parse_rlwimi_render ra rs sh mb me h1 h2 h3 h4 h5]
  | Rlwnm ra rs rb mb me =>
    obtain ⟨h1, h2, h3, h4, h5⟩ := h
    simp only [parse_opcode,
      palt,
      parse_rlwinm_ne (renderOp (.Rlwnm ra rs rb mb me)) (by rfl),
      parse_rlwimi_ne (renderOp (.Rlwnm ra rs rb mb me)) (by rfl),
      parse_rlwnm_render ra rs rb mb me h1 h2 h3 h4 h5]
  | Extlwi ra rs n b =>
    obtain ⟨h1, h2, h3, h4⟩ := h
    simp only [parse_opcode,
      palt,
      parse_rlwinm_ne (renderOp (.Extlwi ra rs n b)) (by rfl),
      parse_rlwimi_ne (renderOp (.Extlwi ra rs n b)) (by rfl),
      parse_rlwnm_ne (renderOp (.Extlwi ra rs n b)) (by rfl),
      parse_extlwi_render ra rs n b h1 h2 h3 h4]
  | Extrwi ra rs n b =>
    obtain ⟨h1, h2, h3, h4⟩ := h
    simp only [parse_opcode,
      palt,
      parse_rlwinm_ne (renderOp (.Extrwi ra rs n b)) (by rfl),
      parse_rlwimi_ne (renderOp (.Extrwi ra rs n b)) (by rfl),
      parse_rlwnm_ne (renderOp (.Extrwi ra rs n b)) (by rfl),
      parse_extlwi_ne (renderOp (.Extrwi ra rs n b)) (by rfl),
      parse_extrwi_render ra rs n b h1 h2 h3 h4]
  | Rotlwi ra rs n =>
    obtain ⟨h1, h2, h3⟩ := h
    simp only [parse_opcode,
      palt,
      parse_rlwinm_ne (renderOp (.Rotlwi ra rs n)) (by rfl),
      parse_rlwimi_ne (renderOp (.Rotlwi ra rs n)) (by rfl),
      parse_rlwnm_ne (renderOp (.Rotlwi ra rs n)) (by rfl),
      parse_extlwi_ne (renderOp (.Rotlwi ra rs n)) (by rfl),
      parse_extrwi_ne (renderOp (.Rotlwi ra rs n)) (by rfl),
      parse_rotlwi_render ra rs n h1 h2 h3]
  | Rotrwi ra rs n =>
    obtain ⟨h1, h2, h3⟩ := h
    simp only [parse_opcode,
      palt,
      parse_rlwinm_ne (renderOp (.Rotrwi ra rs n)) (by rfl),
      parse_rlwimi_ne (renderOp (.Rotrwi ra rs n)) (by rfl),
      parse_rlwnm_ne (renderOp (.Rotrwi ra rs n)) (by rfl),
      parse_extlwi_ne (renderOp (.Rotrwi ra rs n)) (by rfl),
      parse_extrwi_ne (renderOp (.Rotrwi ra rs n)) (by rfl),
      parse_rotlwi_ne (renderOp (.Rotrwi ra rs n)) (by rfl),
      parse_rotrwi_render ra rs n h1 h2 h3]
  | Slwi ra rs n =>
    obtain ⟨h1, h2, h3⟩ := h
    simp only [parse_opcode,
      palt,
      parse_rlwinm_ne (renderOp (.Slwi ra rs n)) (by rfl),
      parse_rlwimi_ne (renderOp (.Slwi ra rs n)) (by rfl),
      parse_rlwnm_ne (renderOp (.Slwi ra rs n)) (by rfl),
      parse_extlwi_ne (renderOp (.Slwi ra rs n)) (by rfl),
      parse_extrwi_ne (renderOp (.Slwi ra rs n)) (by rfl),
      parse_rotlwi_ne (renderOp (.Slwi ra rs n)) (by rfl),
      parse_rotrwi_ne (renderOp (.Slwi ra rs n)) (by rfl),
      parse_slwi_render ra rs n h1 h2 h3]
  | Srwi ra rs n =>
    obtain ⟨h1, h2, h3⟩ := h
    simp only [parse_opcode,
      palt,
      parse_rlwinm_ne (renderOp (.Srwi ra rs n)) (by rfl),
      parse_rlwimi_ne (renderOp (.Srwi ra rs n)) (by rfl),
      parse_rlwnm_ne (renderOp (.Srwi ra rs n)) (by rfl),
      parse_extlwi_ne (renderOp (.Srwi ra rs n)) (by rfl),
      parse_extrwi_ne (renderOp (.Srwi ra rs n)) (by rfl),
      parse_rotlwi_ne (renderOp (.Srwi ra rs n)) (by rfl),
      parse_rotrwi_ne (renderOp (.Srwi ra rs n)) (by rfl),
      parse_slwi_ne (renderOp (.Srwi ra rs n)) (by rfl),
      parse_srwi_render ra rs n h1 h2 h3]
  | Clrlwi ra rs n =>
    obtain ⟨h1, h2, h3⟩ := h
    simp only [parse_opcode,
      palt,
      parse_rlwinm_ne (renderOp (.Clrlwi ra rs n)) (by rfl),
      parse_rlwimi_ne (renderOp (.Clrlwi ra rs n)) (by rfl),
      parse_rlwnm_ne (renderOp (.Clrlwi ra rs n)) (by rfl),
      parse_extlwi_ne (renderOp (.Clrlwi ra rs n)) (by rfl),
      parse_extrwi_ne (renderOp (.Clrlwi ra rs n)) (by rfl),
      parse_rotlwi_ne (renderOp (.Clrlwi ra rs n)) (by rfl),
      parse_rotrwi_ne (renderOp (.Clrlwi ra rs n)) (by rfl),
      parse_slwi_ne (renderOp (.Clrlwi ra rs n)) (by rfl),
      parse_srwi_ne (renderOp (.Clrlwi ra rs n)) (by rfl),
      parse_clrlwi_render ra rs n h1 h2 h3]
  | Clrrwi ra rs n =>
    obtain ⟨h1, h2, h3⟩ := h
    simp only [parse_opcode,
      palt,
      parse_rlwinm_ne (renderOp (.Clrrwi ra rs n)) (by rfl),
      parse_rlwimi_ne (renderOp (.Clrrwi ra rs n)) (by rfl),
      parse_rlwnm_ne (renderOp (.Clrrwi ra rs n)) (by rfl),
      parse_extlwi_ne (renderOp (.Clrrwi ra rs n)) (by rfl),
      parse_extrwi_ne (renderOp (.Clrrwi ra rs n)) (by rfl),
      parse_rotlwi_ne (renderOp (.Clrrwi ra rs n)) (by rfl),
      parse_rotrwi_ne (renderOp (.Clrrwi ra rs n)) (by rfl),
      parse_slwi_ne (renderOp (.Clrrwi ra rs n)) (by rfl),
      parse_srwi_ne (renderOp (.Clrrwi ra rs n)) (by rfl),
      parse_clrlwi_ne (renderOp (.Clrrwi ra rs n)) (by rfl),
      parse_clrrwi_render ra rs n h1 h2 h3]
  | Clrlslwi ra rs b n =>
    obtain ⟨h1, h2, h3, h4⟩ := h
    simp only [parse_opcode,
      palt,
      parse_rlwinm_ne (renderOp (.Clrlslwi ra rs b n)) (by rfl),
      parse_rlwimi_ne (renderOp (.Clrlslwi ra rs b n)) (by rfl),
      parse_rlwnm_ne (renderOp (.Clrlslwi ra rs b n)) (by rfl),
      parse_extlwi_ne (renderOp (.Clrlslwi ra rs b n)) (by rfl),
      parse_extrwi_ne (renderOp (.Clrlslwi ra rs b n)) (by rfl),
      parse_rotlwi_ne (renderOp (.Clrlslwi ra rs b n)) (by rfl),
      parse_rotrwi_ne (renderOp (.Clrlslwi ra rs b n)) (by rfl),
      parse_slwi_ne (renderOp (.Clrlslwi ra rs b n)) (by rfl),
      parse_srwi_ne (renderOp (.Clrlslwi ra rs b n)) (by rfl),
      parse_clrlwi_ne (renderOp (.Clrlslwi ra rs b n)) (by rfl),
      parse_clrrwi_ne (renderOp (.Clrlslwi ra rs b n)) (by rfl),
      parse_clrlslwi_render ra rs b n h1 h2 h3 h4]
  | Rotlw ra rs rb =>
    obtain ⟨h1, h2, h3⟩ := h
    simp only [parse_opcode,
      palt,
      parse_rlwinm_ne (renderOp (.Rotlw ra rs rb)) (by rfl),
      parse_rlwimi_ne (renderOp (.Rotlw ra rs rb)) (by rfl),
      parse_rlwnm_ne (renderOp (.Rotlw ra rs rb)) (by rfl),
      parse_extlwi_ne (renderOp (.Rotlw ra rs rb)) (by rfl),
      parse_extrwi_ne (renderOp (.Rotlw ra rs rb)) (by rfl),
      parse_rotlwi_ne (renderOp (.Rotlw ra rs rb)) (by rfl),
      parse_rotrwi_ne (renderOp (.Rotlw ra rs rb)) (by rfl),
      parse_slwi_ne (renderOp (.Rotlw ra rs rb)) (by rfl),
      parse_srwi_ne (renderOp (.Rotlw ra rs rb)) (by rfl),
      parse_clrlwi_ne (renderOp (.Rotlw ra rs rb)) (by rfl),
      parse_clrrwi_ne (renderOp (.Rotlw ra rs rb)) (by rfl),
      parse_clrlslwi_ne (renderOp (.Rotlw ra rs rb)) (by rfl),
      parse_rotlw_render ra rs rb h1 h2 h3]
  | Inslwi ra rs n b =>
    obtain ⟨h1, h2, h3, h4⟩ := h
    simp only [parse_opcode,
      palt,
      parse_rlwinm_ne (renderOp (.Inslwi ra rs n b)) (by rfl),
      parse_rlwimi_ne (renderOp (.Inslwi ra rs n b)) (by rfl),
      parse_rlwnm_ne (renderOp (.Inslwi ra rs n b)) (by rfl),
      parse_extlwi_ne (renderOp (.Inslwi ra rs n b)) (by rfl),
      parse_extrwi_ne (renderOp (.Inslwi ra rs n b)) (by rfl),
      parse_rotlwi_ne (renderOp (.Inslwi ra rs n b)) (by rfl),
      parse_rotrwi_ne (renderOp (.Inslwi ra rs n b)) (by rfl),
      parse_slwi_ne (renderOp (.Inslwi ra rs n b)) (by rfl),
      parse_srwi_ne (renderOp (.Inslwi ra rs n b)) (by rfl),
      parse_clrlwi_ne (renderOp (.Inslwi ra rs n b)) (by rfl),
      parse_clrrwi_ne (renderOp (.Inslwi ra rs n b)) (by rfl),
      parse_clrlslwi_ne (renderOp (.Inslwi ra rs n b)) (by rfl),
      parse_rotlw_ne (renderOp (.Inslwi ra rs n b)) (by rfl),
      parse_inslwi_render ra rs n b h1 h2 h3 h4]
  | Insrwi ra rs n b =>
    obtain ⟨h1, h2, h3, h4⟩ := h
    simp only [parse_opcode,
      palt,
      parse_rlwinm_ne (renderOp (.Insrwi ra rs n b)) (by rfl),
      parse_rlwimi_ne (renderOp (.Insrwi ra rs n b)) (by rfl),
      parse_rlwnm_ne (renderOp (.Insrwi ra rs n b)) (by rfl),
      parse_extlwi_ne (renderOp (.Insrwi ra rs n b)) (by rfl),
      parse_extrwi_ne (renderOp (.Insrwi ra rs n b)) (by rfl),
      parse_rotlwi_ne (renderOp (.Insrwi ra rs n b)) (by rfl),
      parse_rotrwi_ne (renderOp (.Insrwi ra rs n b)) (by rfl),
      parse_slwi_ne (renderOp (.Insrwi ra rs n b)) (by rfl),
      parse_srwi_ne (renderOp (.Insrwi ra rs n b)) (by rfl),
      parse_clrlwi_ne (renderOp (.Insrwi ra rs n b)) (by rfl),
      parse_clrrwi_ne (renderOp (.Insrwi ra rs n b)) (by rfl),
      parse_clrlslwi_ne (renderOp (.Insrwi ra rs n b)) (by rfl),
      parse_rotlw_ne (renderOp (.Insrwi ra rs n b)) (by rfl),
      parse_inslwi_ne (renderOp (.Insrwi ra rs n b)) (by rfl),
      parse_insrwi_render ra rs n b h1 h2 h3 h4]

/-- Witness for C8 at `slwi r3,r4,5`. -/
theorem claim_C8_witness :
    parse_opcode (renderOp (.Slwi ⟨3⟩ ⟨4⟩ 5)) = .ok ([], .Slwi ⟨3⟩ ⟨4⟩ 5) :=
  claim_C8_roundtrip (.Slwi ⟨3⟩ ⟨4⟩ 5)
    (show (3 : Nat) ≤ 255 ∧ (4 : Nat) ≤ 255 ∧ (5 : Nat) ≤ 255 by decide)

/-- C7 (amended): an immediate is lowercase-`0x`-prefixed hex or bare
decimal, hex tried first; lowercase-hex and decimal spellings of the same
8-bit value parse to the same result (`"0x10"` and `"16"` both give 16) —
but the uppercase prefix `"0X10"` is not hex: it parses as the decimal
immediate 0 with `"X10"` left unconsumed. -/
theorem claim_C7_immediate_spellings (a : Nat) (ha : a ≤ 255) :
    parse_immediate (['0', 'x'] ++ (hexDigitsL a ++ [])) = .ok ([], a) ∧
    parse_immediate (renderImm a []) = .ok ([], a) ∧
    parse_immediate "0x10".toList = .ok ([], 16) ∧
    parse_immediate "16".toList = .ok ([], 16) ∧
    parse_immediate "0X10".toList = .ok ("X10".toList, 0) :=
  ⟨parse_immediate_hex a ha [] trivial, parse_immediate_dec a ha [] trivial,
    rfl, rfl, rfl⟩

/-- Witness for C7 at the value 16. -/
theorem claim_C7_witness :
    parse_immediate (['0', 'x'] ++ (hexDigitsL 16 ++ [])) = .ok ([], 16) ∧
    parse_immediate (renderImm 16 []) = .ok ([], 16) :=
  ⟨(claim_C7_immediate_spellings 16 (by decide)).1,
   (claim_C7_immediate_spellings 16 (by decide)).2.1⟩

/-- A failed `alt` step passes the next branch's result through. -/
theorem palt_error {α : Type} (r : PRes α) (next : Unit → PRes α)
    (e : List Char × ErrKind) (h : palt r next = .error e) : next () = .error e := by
  cases r with
  | ok v => simp [palt] at h
  | error e2 => simpa [palt] using h

/-- C9 (amended): parse failures are not distinct inspectable kinds: every
failure of `parse_opcode` is the unmodified error of the last alternative
(`parse_insrwi`), and the two spec scenarios — an unrecognized mnemonic and
a missing operand — produce errors with one and the same kind at the start
of the line. -/
theorem claim_C9_generic_failure :
    (∀ (inp : List Char) (e : List Char × ErrKind),
      parse_opcode inp = .error e → parse_insrwi inp = .error e) ∧
    (∃ k : ErrKind,
      parse_opcode "bogus r0,r1".toList = .error ("bogus r0,r1".toList, k) ∧
      parse_opcode "rlwinm r0,r7,0x10,0x0".toList =
        .error ("rlwinm r0,r7,0x10,0x0".toList, k)) := by
  refine ⟨fun inp e h => ?_, ⟨.Tag, rfl, rfl⟩⟩
  rw [parse_opcode] at h
  iterate 14 replace h := palt_error _ _ _ h
  exact h

/-- Witness for C9: the last alternative's error is the reported error on
the unrecognized line. -/
theorem claim_C9_witness :
    parse_insrwi "bogus r0,r1".toList = .error ("bogus r0,r1".toList, .Tag) :=
  claim_C9_generic_failure.1 "bogus r0,r1".toList ("bogus r0,r1".toList, .Tag) (by rfl)
